import Mathlib

/-!
Shallow embedding of the JSON-LD processor in src/json_ld_processor.py
(class Processor), together with theorems settling the specification
claims about it.

Modelling conventions:
* A parsed JSON value (the result of json.loads) is a JValue.  Python
  dicts are association lists with unique keys; dict lookup is the
  first-match lookup pyLookup.  Python unicode strings are Lean Strings.
* A Python float is abstracted by its truthiness bit (value equal to 0.0
  or not) and by its "%f"-rendered lexical form, the only two ways the
  processor observes a float.
* uuid.uuid4().hex is modelled by a deterministic fresh-label supply:
  the n-th generated blank node is genBNode n.  Only freshness and
  identity of the labels matter to the processor.
* A context (a Python dict mapping names to values) is modelled
  extensionally as a function String -> Option JValue, since the
  processor only ever looks keys up in it; dict equality in Python is
  extensional equality of the lookup functions.
* Exceptions are modelled with Except / an error field.  The generator
  semantics of Processor.__triples is modelled denotationally: a walk
  returns the list of triples yielded before any exception, plus an
  optional terminal error.
-/

set_option maxHeartbeats 1000000
set_option maxRecDepth 8000

/-- A parsed JSON value, as produced by the external JSON parser
(simplejson).  The float constructor abstracts a Python float by its
truthiness (nonzero) and its "%f" fixed-point rendering (lex). -/
inductive JValue where
  | null : JValue
  | bool : Bool → JValue
  | int : Int → JValue
  | float : Bool → String → JValue
  | str : String → JValue
  | arr : List JValue → JValue
  | obj : List (String × JValue) → JValue
deriving Repr

/-- First-match association-list lookup: Python dict lookup
(dicts parsed from JSON have unique keys). -/
def pyLookup : List (String × JValue) → String → Option JValue
  | [], _ => none
  | (k, v) :: rest, key => if k = key then some v else pyLookup rest key

/-- Python dict item assignment d[key] = v: replaces the binding if the
key is present, otherwise adds it. -/
def setKey : List (String × JValue) → String → JValue → List (String × JValue)
  | [], key, v => [(key, v)]
  | (k, w) :: rest, key, v =>
      if k = key then (key, v) :: rest else (k, w) :: setKey rest key v

/-- A context: the extensional content of a Python dict used only via
has_key and item lookup. -/
def Ctx : Type := String → Option JValue

/-- The context denoted by a JSON object that appears as the value of
the reserved key "#". -/
def ctxOfObj (l : List (String × JValue)) : Ctx := fun k => pyLookup l k

/-- Processor.__merge_contexts: builds a fresh dict holding the active
bindings overwritten by the local ones.  Extensionally: the local
binding wins when present.  Neither input is mutated (the model is
pure). -/
def mergeContexts (localc activec : Ctx) : Ctx := fun k =>
  match localc k with
  | some v => some v
  | none => activec k

/-- The default context literal from Processor.__init__. -/
def defaultList : List (String × JValue) :=
  [ ("__vocab__", .str "http://example.org/default-vocab#"),
    ("rdf", .str "http://www.w3.org/1999/02/22-rdf-syntax-ns#"),
    ("xsd", .str "http://www.w3.org/2001/XMLSchema#"),
    ("dc", .str "http://purl.org/dc/terms/"),
    ("skos", .str "http://www.w3.org/2004/02/skos/core#"),
    ("foaf", .str "http://xmlns.com/foaf/0.1/"),
    ("sioc", .str "http://rdfs.org/sioc/ns#"),
    ("cc", .str "http://creativecommons.org/ns#"),
    ("geo", .str "http://www.w3.org/2003/01/geo/wgs84_pos#"),
    ("vcard", .str "http://www.w3.org/2006/vcard/ns#"),
    ("cal", .str "http://www.w3.org/2002/12/cal/ical#"),
    ("doap", .str "http://usefulinc.com/ns/doap#"),
    ("Person", .str "http://xmlns.com/foaf/0.1/Person"),
    ("name", .str "http://xmlns.com/foaf/0.1/name"),
    ("homepage", .str "http://xmlns.com/foaf/0.1/homepage") ]

/-- The default context of a Processor constructed with context=None. -/
def defaultContext : Ctx := ctxOfObj defaultList

/-- Python 2 re \w on a byte-string pattern: ASCII letters, digits and
underscore. -/
def wordChar (c : Char) : Bool := c.isAlpha || c.isDigit || c = '_'

/-- Python 2 re \s on a byte-string pattern. -/
def pySpace (c : Char) : Bool :=
  c = ' ' || c = '\t' || c = '\n' || c = '\r' || c = '\x0b' || c = '\x0c'

/-- Characters stripped by term.strip(two-angle-bracket char set). -/
def isAngle (c : Char) : Bool := c = '<' || c = '>'

/-- Python str.strip with the angle brackets as the char set: removes
all leading and trailing characters in that set. -/
def pyStrip (s : String) : String :=
  String.mk (((s.data.dropWhile isAngle).reverse.dropWhile isAngle).reverse)

/-- self.__curie_pattern.match: the anchored regex of one word run, a
colon, and a second word run.  Python re's dollar anchor (without
re.MULTILINE) also matches just before one newline that ends the
string, so a single trailing newline is ignored. -/
def curieMatch (s : String) : Bool :=
  let l := if s.data.getLast? = some '\n' then s.data.dropLast else s.data
  match l.span (fun c => c ≠ ':') with
  | (w1, ':' :: w2) =>
      (!w1.isEmpty) && (!w2.isEmpty) && w1.all wordChar && w2.all wordChar
  | _ => false

/-- The captured groups of self.__iri_pattern (groups 1 to 6; group 4
is never read by the processor but is kept for fidelity). -/
structure IriG where
  g1 : String
  g2 : String
  g3 : String
  g4 : String
  g5 : String
  g6 : String
deriving Repr, DecidableEq

/-- The core of the tail matcher, after the dollar anchor has fixed the
effective end of input: one or more characters that are neither a
closing angle bracket nor whitespace, then an optional closing angle
bracket, then the end.  Returns the characters of group 5 and group
6.  This is the net effect of the backtracking regex engine on that
suffix. -/
def tCore? (core : List Char) : Option (List Char × String) :=
  if core.isEmpty then none
  else if core.any pySpace then none
  else if core.getLast? = some '>' then
    let p := core.dropLast
    if p.isEmpty || p.contains '>' then none else some (p, ">")
  else if core.contains '>' then none
  else some (core, "")

/-- The tail matcher for the last two groups of the IRI regex.  The
dollar anchor of Python re (without re.MULTILINE) matches at the end of
the string or just before one newline that ends it, and no group of
the tail can consume a newline, so the match is the core matcher run on
the tail with a single trailing newline removed. -/
def tMatch? (u : List Char) : Option (List Char × String) :=
  tCore? (if u.getLast? = some '\n' then u.dropLast else u)

/-- The two optional-slash groups followed by the tail matcher, with
the backtracking order of the regex engine: both slashes first, then
one, then none. -/
def slashTail? (rest : List Char) : Option (String × String × List Char × String) :=
  if rest.take 2 = ['/', '/'] then
    match tMatch? (rest.drop 2) with
    | some (p, g6) => some ("/", "/", p, g6)
    | none =>
        match tMatch? (rest.drop 1) with
        | some (p, g6) => some ("/", "", p, g6)
        | none =>
            match tMatch? rest with
            | some (p, g6) => some ("", "", p, g6)
            | none => none
  else if rest.take 1 = ['/'] then
    match tMatch? (rest.drop 1) with
    | some (p, g6) => some ("/", "", p, g6)
    | none =>
        match tMatch? rest with
        | some (p, g6) => some ("", "", p, g6)
        | none => none
  else
    match tMatch? rest with
    | some (p, g6) => some ("", "", p, g6)
    | none => none

/-- self.__iri_pattern.match: an optional opening angle bracket, a
nonempty word run, a colon, up to two slashes, the tail, an optional
closing angle bracket.  A leading angle bracket must be consumed by
group 1 (backtracking to the empty option cannot succeed because a word
character is required next), and the word run is maximal (shortening it
leaves a word character where the colon is required). -/
def iriMatch? (s : String) : Option IriG :=
  let g1 : String := if s.data.head? = some '<' then "<" else ""
  let l1 : List Char := if s.data.head? = some '<' then s.data.tail else s.data
  let w := l1.takeWhile wordChar
  let r0 := l1.dropWhile wordChar
  if w.isEmpty then none
  else if r0.head? = some ':' then
    match slashTail? r0.tail with
    | some (g3, g4, g5, g6) => some ⟨g1, String.mk w, g3, g4, String.mk g5, g6⟩
    | none => none
  else none

/-- Processor.__term_to_iri.  Returns the resolved value or the raised
exception.  A context value that is not a string cannot be
concatenated in Python, which raises a TypeError; the bare-term lookup
on line 265 returns the stored value unchanged, whatever it is. -/
def termToIri (term : String) (c : Ctx) : Except String JValue :=
  match iriMatch? term with
  | some g =>
      if g.g1 = "<" && g.g6 = ">" then .ok (.str (pyStrip term))
      else if g.g3 = "/" then .ok (.str term)
      else
        match c g.g2 with
        | some (.str v) => .ok (.str (v ++ g.g5))
        | some _ => .error "TypeError: cannot concatenate str and non-str objects"
        | none =>
            if g.g2 = "_" then .ok (.str term)
            else .error ("The current context is missing a match for " ++ g.g2 ++ " in " ++ term)
  | none =>
      match c term with
      | some v => .ok v
      | none =>
          match c "__vocab__" with
          | some (.str v) => .ok (.str (v ++ term))
          | some _ => .error "TypeError: cannot concatenate str and non-str objects"
          | none => .error "The current context is missing a __vocab__ prefix"

/-- Processor.__value_to_typed_literal.  The string branch returns the
value unchanged (the lang and datatype checks are unwritten in this
revision, see the comments on lines 277 and 278 of the source). -/
def valueToTypedLiteral : JValue → Except String JValue
  | .str s => .ok (.str s)
  | .bool b =>
      if b then .ok (.str "true^^http://www.w3.org/2001/XMLSchema#boolean")
      else .ok (.str "false^^http://www.w3.org/2001/XMLSchema#boolean")
  | .float _ lex => .ok (.str (lex ++ "^^http://www.w3.org/2001/XMLSchema#decimal"))
  | .int n => .ok (.str (toString n ++ "^^http://www.w3.org/2001/XMLSchema#integer"))
  | .null => .error "Unknown literal type: NoneType"
  | .arr _ => .error "Unknown literal type: list"
  | .obj _ => .error "Unknown literal type: dict"

/-- Processor.__process_object. -/
def processObject (v : JValue) (c : Ctx) : Except String JValue :=
  match v with
  | .str s =>
      if curieMatch s || (iriMatch? s).isSome || (c s).isSome then termToIri s c
      else valueToTypedLiteral (.str s)
  | _ => valueToTypedLiteral v

/-- Python truthiness of a parsed JSON value. -/
def pyTruthy : JValue → Bool
  | .null => false
  | .bool b => b
  | .int n => n != 0
  | .float nz _ => nz
  | .str s => s != ""
  | .arr xs => !xs.isEmpty
  | .obj kvs => !kvs.isEmpty

/-- The n-th blank-node label drawn from the fresh-label supply that
models uuid.uuid4().hex (an injective supply of word-character
strings). -/
def genBNode (n : Nat) : String :=
  String.mk ('_' :: ':' :: 'b' :: List.replicate n 'b')

def rdfType : String := "http://www.w3.org/1999/02/22-rdf-syntax-ns#type"

/-- One triple as yielded by the processor: the dict with keys subj,
prop and obj.  Each field holds whatever Python value the processor put
there (the subject can be None, the property is normally a string). -/
structure Triple where
  subj : JValue
  prop : JValue
  obj : JValue
deriving Repr

/-- The result of pulling a generator to exhaustion (or to its raised
exception): the triples yielded, the optional error, the item as
updated by in-place mutation, and the state of the fresh-label
supply. -/
structure WalkRes where
  ts : List Triple
  err : Option String
  upd : JValue
  gen : Nat
deriving Repr

/-- The recursion states of Processor.__triples: a whole item, a list
of items (top-level or subject arrays), the body of an object after
context merging, the key iteration of an object, one member value, and
the elements of a member-value array. -/
inductive WTask where
  | one (item : JValue)
  | seq (es : List JValue)
  | objBody (kvs : List (String × JValue))
  | members (s : JValue) (kvs : List (String × JValue))
  | value (s p : JValue) (v : JValue)
  | elems (s p : JValue) (es : List JValue)

def asObj : JValue → List (String × JValue)
  | .obj l => l
  | _ => []

def asArr : JValue → List JValue
  | .arr l => l
  | _ => []

@[simp] theorem asObj_obj (l : List (String × JValue)) : asObj (.obj l) = l := rfl

@[simp] theorem asArr_arr (l : List JValue) : asArr (.arr l) = l := rfl

def mtag : WTask → Nat
  | .value _ _ _ => 3
  | .one _ => 2
  | .objBody _ => 1
  | _ => 0

theorem pyLookup_sizeOf {l : List (String × JValue)} {key : String} {v : JValue}
    (h : pyLookup l key = some v) : sizeOf v < sizeOf l := by
  induction l with
  | nil => simp [pyLookup] at h
  | cons kv rest ih =>
      obtain ⟨k, w⟩ := kv
      simp only [pyLookup] at h
      split at h
      · cases h
        simp only [List.cons.sizeOf_spec, Prod.mk.sizeOf_spec]
        omega
      · have := ih h
        simp only [List.cons.sizeOf_spec, Prod.mk.sizeOf_spec]
        omega

/-- Processor.__triples, denotationally.  run (.one item) c g walks one
item under active context c with fresh-label state g; the other task
forms are the intermediate loops of the source.  Comment references are
to source lines of json_ld_processor.py. -/
def run : WTask → Ctx → Nat → WalkRes
  | .one item, c, g =>
    match item with
    | .obj kvs =>
        -- lines 147-148: merge a local context if present
        match pyLookup kvs "#" with
        | some (.obj lkvs) => run (.objBody kvs) (mergeContexts (ctxOfObj lkvs) c) g
        | some _ => ⟨[], some "AttributeError: object has no attribute keys", .obj kvs, g⟩
        | none => run (.objBody kvs) c g
    | .arr xs => run (.seq xs) c g
    | v => ⟨[], none, v, g⟩ -- lines 216-219: scalars yield nothing
  | .seq es, c, g =>
    -- lines 211-214 (also 158-161): walk each element in order
    match es with
    | [] => ⟨[], none, .arr [], g⟩
    | e :: rest =>
        let r := run (.one e) c g
        match r.err with
        | some e0 => ⟨r.ts, some e0, .arr (r.upd :: rest), r.gen⟩
        | none =>
            let r2 := run (.seq rest) c r.gen
            ⟨r.ts ++ r2.ts, r2.err, .arr (r.upd :: asArr r2.upd), r2.gen⟩
  | .objBody kvs, c, g =>
    -- lines 152-169: determine the subject
    match h : pyLookup kvs "@" with
    | some (.obj skvs) =>
        let r := run (.one (.obj skvs)) c g
        match r.err with
        | some e0 => ⟨r.ts, some e0, .obj (setKey kvs "@" r.upd), r.gen⟩
        | none =>
            match pyLookup (asObj r.upd) "@" with
            | some sv =>
                let m := run (.members sv kvs) c r.gen
                ⟨r.ts ++ m.ts, m.err, .obj (setKey (asObj m.upd) "@" r.upd), m.gen⟩
            | none => ⟨r.ts, some "KeyError: @", .obj (setKey kvs "@" r.upd), r.gen⟩
    | some (.arr xs) =>
        let r := run (.one (.arr xs)) c g
        match r.err with
        | some e0 => ⟨r.ts, some e0, .obj (setKey kvs "@" r.upd), r.gen⟩
        | none =>
            let m := run (.members (.str (genBNode r.gen)) kvs) c (r.gen + 1)
            ⟨r.ts ++ m.ts, m.err, .obj (setKey (asObj m.upd) "@" r.upd), m.gen⟩
    | some (.str s0) =>
        -- line 163-164: a truthy string is resolved; line 165-166: a
        -- falsy value is left as the subject unchanged
        if s0 = "" then run (.members (.str s0) kvs) c g
        else
          match termToIri s0 c with
          | .ok sv => run (.members sv kvs) c g
          | .error e0 => ⟨[], some e0, .obj kvs, g⟩
    | some sv =>
        if pyTruthy sv then ⟨[], some "TypeError: expected string or buffer", .obj kvs, g⟩
        else run (.members sv kvs) c g
    | none =>
        -- lines 167-169: generate a blank node and record it under "@"
        let m := run (.members (.str (genBNode g)) kvs) c (g + 1)
        ⟨m.ts, m.err, .obj (setKey (asObj m.upd) "@" (.str (genBNode g))), m.gen⟩
  | .members s kvs, c, g =>
    -- lines 173-207: iterate over the key-value pairs
    match kvs with
    | [] => ⟨[], none, .obj [], g⟩
    | (k, v) :: rest =>
        if k = "#" || k = "@" then
          let m := run (.members s rest) c g
          ⟨m.ts, m.err, .obj ((k, v) :: asObj m.upd), m.gen⟩
        else
          match (if k = "a" then Except.ok (JValue.str rdfType) else termToIri k c) with
          | .error e0 => ⟨[], some e0, .obj ((k, v) :: rest), g⟩
          | .ok p =>
              let r := run (.value s p v) c g
              match r.err with
              | some e0 => ⟨r.ts, some e0, .obj ((k, r.upd) :: rest), r.gen⟩
              | none =>
                  let m := run (.members s rest) c r.gen
                  ⟨r.ts ++ m.ts, m.err, .obj ((k, r.upd) :: asObj m.upd), m.gen⟩
  | .value s p v, c, g =>
    -- lines 185-207: handle one member value
    match v with
    | .obj okvs =>
        let r := run (.one (.obj okvs)) c g
        match r.err with
        | some e0 => ⟨r.ts, some e0, r.upd, r.gen⟩
        | none =>
            match pyLookup (asObj r.upd) "@" with
            | some av =>
                match processObject av c with
                | .ok o => ⟨r.ts ++ [⟨s, p, o⟩], none, r.upd, r.gen⟩
                | .error e0 => ⟨r.ts, some e0, r.upd, r.gen⟩
            | none => ⟨r.ts, some "KeyError: @", r.upd, r.gen⟩
    | .arr xs => run (.elems s p xs) c g
    | sc =>
        if pyTruthy sc then
          match processObject sc c with
          | .ok o => ⟨[⟨s, p, o⟩], none, sc, g⟩
          | .error e0 => ⟨[], some e0, sc, g⟩
        else ⟨[], none, sc, g⟩
  | .elems s p es, c, g =>
    -- lines 191-202: iterate over the elements of a member-value array
    match es with
    | [] => ⟨[], none, .arr [], g⟩
    | e :: rest =>
        match e with
        | .obj okvs =>
            let r := run (.one (.obj okvs)) c g
            match r.err with
            | some e0 => ⟨r.ts, some e0, .arr (r.upd :: rest), r.gen⟩
            | none =>
                match pyLookup (asObj r.upd) "@" with
                | some av =>
                    match processObject av c with
                    | .ok o =>
                        let m := run (.elems s p rest) c r.gen
                        ⟨(r.ts ++ [⟨s, p, o⟩]) ++ m.ts, m.err, .arr (r.upd :: asArr m.upd), m.gen⟩
                    | .error e0 => ⟨r.ts, some e0, .arr (r.upd :: rest), r.gen⟩
                | none => ⟨r.ts, some "KeyError: @", .arr (r.upd :: rest), r.gen⟩
        | .arr ys =>
            let r := run (.one (.arr ys)) c g
            match r.err with
            | some e0 => ⟨r.ts, some e0, .arr (r.upd :: rest), r.gen⟩
            | none =>
                let m := run (.elems s p rest) c r.gen
                ⟨r.ts ++ m.ts, m.err, .arr (r.upd :: asArr m.upd), m.gen⟩
        | sc =>
            if pyTruthy sc then
              match processObject sc c with
              | .ok o =>
                  let m := run (.elems s p rest) c g
                  ⟨⟨s, p, o⟩ :: m.ts, m.err, .arr (sc :: asArr m.upd), m.gen⟩
              | .error e0 => ⟨[], some e0, .arr (sc :: rest), g⟩
            else
              let m := run (.elems s p rest) c g
              ⟨m.ts, m.err, .arr (sc :: asArr m.upd), m.gen⟩
termination_by t c g =>
  ((match t with
    | .one v => sizeOf v
    | .seq es => sizeOf es
    | .objBody kvs => sizeOf kvs
    | .members _ kvs => sizeOf kvs
    | .value _ _ v => sizeOf v
    | .elems _ _ es => sizeOf es), mtag t)
decreasing_by
all_goals (try simp_wf)
all_goals
  first
  | (apply Prod.Lex.right
     try simp [mtag]
     try omega)
  | (apply Prod.Lex.left
     try simp only [JValue.obj.sizeOf_spec, JValue.arr.sizeOf_spec,
       List.cons.sizeOf_spec, Prod.mk.sizeOf_spec]
     first
     | omega
     | (have hs := pyLookup_sizeOf h
        simp only [JValue.obj.sizeOf_spec, JValue.arr.sizeOf_spec] at hs
        omega)
     | (have hs := pyLookup_sizeOf h
        omega))

/-! Branch equations for run, used both to evaluate concrete documents
and in the general theorems. -/

theorem runOne_noCtx (kvs : List (String × JValue)) (c : Ctx) (g : Nat)
    (h : pyLookup kvs "#" = none) :
    run (.one (.obj kvs)) c g = run (.objBody kvs) c g := by
  rw [run.eq_def]
  simp only [h]

theorem runOne_ctx (kvs lkvs : List (String × JValue)) (c : Ctx) (g : Nat)
    (h : pyLookup kvs "#" = some (.obj lkvs)) :
    run (.one (.obj kvs)) c g = run (.objBody kvs) (mergeContexts (ctxOfObj lkvs) c) g := by
  rw [run.eq_def]
  simp only [h]

theorem runOne_arr (xs : List JValue) (c : Ctx) (g : Nat) :
    run (.one (.arr xs)) c g = run (.seq xs) c g := by
  rw [run.eq_def]

theorem runOne_null (c : Ctx) (g : Nat) : run (.one .null) c g = ⟨[], none, .null, g⟩ := by
  rw [run.eq_def]

theorem runOne_bool (b : Bool) (c : Ctx) (g : Nat) :
    run (.one (.bool b)) c g = ⟨[], none, .bool b, g⟩ := by
  rw [run.eq_def]

theorem runOne_int (n : Int) (c : Ctx) (g : Nat) :
    run (.one (.int n)) c g = ⟨[], none, .int n, g⟩ := by
  rw [run.eq_def]

theorem runOne_float (nz : Bool) (lex : String) (c : Ctx) (g : Nat) :
    run (.one (.float nz lex)) c g = ⟨[], none, .float nz lex, g⟩ := by
  rw [run.eq_def]

theorem runOne_str (st : String) (c : Ctx) (g : Nat) :
    run (.one (.str st)) c g = ⟨[], none, .str st, g⟩ := by
  rw [run.eq_def]

theorem runSeq_nil (c : Ctx) (g : Nat) : run (.seq []) c g = ⟨[], none, .arr [], g⟩ := by
  rw [run.eq_def]

theorem runSeq_cons_err (e : JValue) (rest : List JValue) (c : Ctx) (g : Nat) (e0 : String)
    (h : (run (.one e) c g).err = some e0) :
    run (.seq (e :: rest)) c g =
      ⟨(run (.one e) c g).ts, some e0, .arr ((run (.one e) c g).upd :: rest),
        (run (.one e) c g).gen⟩ := by
  rw [run.eq_def]
  simp only [h]

theorem runSeq_cons_ok (e : JValue) (rest : List JValue) (c : Ctx) (g : Nat)
    (h : (run (.one e) c g).err = none) :
    run (.seq (e :: rest)) c g =
      ⟨(run (.one e) c g).ts ++ (run (.seq rest) c (run (.one e) c g).gen).ts,
        (run (.seq rest) c (run (.one e) c g).gen).err,
        .arr ((run (.one e) c g).upd :: asArr (run (.seq rest) c (run (.one e) c g).gen).upd),
        (run (.seq rest) c (run (.one e) c g).gen).gen⟩ := by
  rw [run.eq_def]
  simp only [h]

theorem runObjBody_str (kvs : List (String × JValue)) (c : Ctx) (g : Nat) (s0 : String)
    (sv : JValue) (h : pyLookup kvs "@" = some (.str s0)) (h0 : ¬ s0 = "")
    (h1 : termToIri s0 c = .ok sv) :
    run (.objBody kvs) c g = run (.members sv kvs) c g := by
  rw [run.eq_def]
  simp only []
  split <;> simp_all

theorem runObjBody_strErr (kvs : List (String × JValue)) (c : Ctx) (g : Nat) (s0 : String)
    (e0 : String) (h : pyLookup kvs "@" = some (.str s0)) (h0 : ¬ s0 = "")
    (h1 : termToIri s0 c = .error e0) :
    run (.objBody kvs) c g = ⟨[], some e0, .obj kvs, g⟩ := by
  rw [run.eq_def]
  simp only []
  split <;> simp_all

theorem runObjBody_noSubj (kvs : List (String × JValue)) (c : Ctx) (g : Nat)
    (h : pyLookup kvs "@" = none) :
    run (.objBody kvs) c g =
      ⟨(run (.members (.str (genBNode g)) kvs) c (g + 1)).ts,
        (run (.members (.str (genBNode g)) kvs) c (g + 1)).err,
        .obj (setKey (asObj (run (.members (.str (genBNode g)) kvs) c (g + 1)).upd) "@"
          (.str (genBNode g))),
        (run (.members (.str (genBNode g)) kvs) c (g + 1)).gen⟩ := by
  rw [run.eq_def]
  simp only []
  split <;> simp_all

theorem runObjBody_null (kvs : List (String × JValue)) (c : Ctx) (g : Nat)
    (h : pyLookup kvs "@" = some .null) :
    run (.objBody kvs) c g = run (.members .null kvs) c g := by
  rw [run.eq_def]
  simp only []
  split <;> simp_all [pyTruthy]

theorem runMembers_nil (s : JValue) (c : Ctx) (g : Nat) :
    run (.members s []) c g = ⟨[], none, .obj [], g⟩ := by
  rw [run.eq_def]

theorem runMembers_skip (s : JValue) (k : String) (v : JValue)
    (rest : List (String × JValue)) (c : Ctx) (g : Nat) (h : k = "#" ∨ k = "@") :
    run (.members s ((k, v) :: rest)) c g =
      ⟨(run (.members s rest) c g).ts, (run (.members s rest) c g).err,
        .obj ((k, v) :: asObj (run (.members s rest) c g).upd),
        (run (.members s rest) c g).gen⟩ := by
  rw [run.eq_def]
  have h' : (k = "#" || k = "@") = true := by
    rcases h with h | h <;> simp [h]
  simp only [h', if_pos]

theorem runMembers_propErr (s : JValue) (k : String) (v : JValue)
    (rest : List (String × JValue)) (c : Ctx) (g : Nat) (e0 : String)
    (h : ¬ (k = "#" ∨ k = "@"))
    (hp : (if k = "a" then Except.ok (JValue.str rdfType) else termToIri k c) = .error e0) :
    run (.members s ((k, v) :: rest)) c g = ⟨[], some e0, .obj ((k, v) :: rest), g⟩ := by
  rw [run.eq_def]
  have h' : (k = "#" || k = "@") = false := by
    simp only [not_or] at h
    simp [h.1, h.2]
  simp only [h', if_neg, hp, Bool.false_eq_true]
  rw [if_neg not_false]

theorem runMembers_cons_err (s : JValue) (k : String) (v p : JValue)
    (rest : List (String × JValue)) (c : Ctx) (g : Nat) (e0 : String)
    (h : ¬ (k = "#" ∨ k = "@"))
    (hp : (if k = "a" then Except.ok (JValue.str rdfType) else termToIri k c) = .ok p)
    (hr : (run (.value s p v) c g).err = some e0) :
    run (.members s ((k, v) :: rest)) c g =
      ⟨(run (.value s p v) c g).ts, some e0,
        .obj ((k, (run (.value s p v) c g).upd) :: rest), (run (.value s p v) c g).gen⟩ := by
  rw [run.eq_def]
  have h' : (k = "#" || k = "@") = false := by
    simp only [not_or] at h
    simp [h.1, h.2]
  simp only [h', if_neg, hp, hr, Bool.false_eq_true]
  rw [if_neg not_false]

theorem runMembers_cons_ok (s : JValue) (k : String) (v p : JValue)
    (rest : List (String × JValue)) (c : Ctx) (g : Nat)
    (h : ¬ (k = "#" ∨ k = "@"))
    (hp : (if k = "a" then Except.ok (JValue.str rdfType) else termToIri k c) = .ok p)
    (hr : (run (.value s p v) c g).err = none) :
    run (.members s ((k, v) :: rest)) c g =
      ⟨(run (.value s p v) c g).ts ++
          (run (.members s rest) c (run (.value s p v) c g).gen).ts,
        (run (.members s rest) c (run (.value s p v) c g).gen).err,
        .obj ((k, (run (.value s p v) c g).upd) ::
          asObj (run (.members s rest) c (run (.value s p v) c g).gen).upd),
        (run (.members s rest) c (run (.value s p v) c g).gen).gen⟩ := by
  rw [run.eq_def]
  have h' : (k = "#" || k = "@") = false := by
    simp only [not_or] at h
    simp [h.1, h.2]
  simp only [h', if_neg, hp, hr, Bool.false_eq_true]
  rw [if_neg not_false]

theorem runValue_str_ok (s p : JValue) (st : String) (c : Ctx) (g : Nat) (o : JValue)
    (h0 : ¬ st = "") (h1 : processObject (.str st) c = .ok o) :
    run (.value s p (.str st)) c g = ⟨[⟨s, p, o⟩], none, .str st, g⟩ := by
  rw [run.eq_def]
  simp only [pyTruthy, h1]
  simp [h0]

theorem runValue_str_err (s p : JValue) (st : String) (c : Ctx) (g : Nat) (e0 : String)
    (h0 : ¬ st = "") (h1 : processObject (.str st) c = .error e0) :
    run (.value s p (.str st)) c g = ⟨[], some e0, .str st, g⟩ := by
  rw [run.eq_def]
  simp only [pyTruthy, h1]
  simp [h0]

theorem runValue_boolFalse (s p : JValue) (c : Ctx) (g : Nat) :
    run (.value s p (.bool false)) c g = ⟨[], none, .bool false, g⟩ := by
  rw [run.eq_def]
  simp [pyTruthy]

theorem runValue_boolTrue (s p : JValue) (c : Ctx) (g : Nat) :
    run (.value s p (.bool true)) c g =
      ⟨[⟨s, p, .str "true^^http://www.w3.org/2001/XMLSchema#boolean"⟩], none, .bool true, g⟩ := by
  rw [run.eq_def]
  simp [pyTruthy, processObject, valueToTypedLiteral]

theorem runValue_float (s p : JValue) (lex : String) (c : Ctx) (g : Nat) :
    run (.value s p (.float true lex)) c g =
      ⟨[⟨s, p, .str (lex ++ "^^http://www.w3.org/2001/XMLSchema#decimal")⟩], none,
        .float true lex, g⟩ := by
  rw [run.eq_def]
  simp [pyTruthy, processObject, valueToTypedLiteral]

theorem runValue_int (s p : JValue) (n : Int) (c : Ctx) (g : Nat) (h : (n != 0) = true) :
    run (.value s p (.int n)) c g =
      ⟨[⟨s, p, .str (toString n ++ "^^http://www.w3.org/2001/XMLSchema#integer")⟩], none,
        .int n, g⟩ := by
  rw [run.eq_def]
  simp [pyTruthy, processObject, valueToTypedLiteral, h]

theorem runValue_null (s p : JValue) (c : Ctx) (g : Nat) :
    run (.value s p .null) c g = ⟨[], none, .null, g⟩ := by
  rw [run.eq_def]
  simp [pyTruthy]

theorem runValue_arr (s p : JValue) (xs : List JValue) (c : Ctx) (g : Nat) :
    run (.value s p (.arr xs)) c g = run (.elems s p xs) c g := by
  rw [run.eq_def]

theorem runValue_obj_ok (s p : JValue) (okvs : List (String × JValue)) (c : Ctx) (g : Nat)
    (av o : JValue)
    (hr : (run (.one (.obj okvs)) c g).err = none)
    (ha : pyLookup (asObj (run (.one (.obj okvs)) c g).upd) "@" = some av)
    (hp : processObject av c = .ok o) :
    run (.value s p (.obj okvs)) c g =
      ⟨(run (.one (.obj okvs)) c g).ts ++ [⟨s, p, o⟩], none,
        (run (.one (.obj okvs)) c g).upd, (run (.one (.obj okvs)) c g).gen⟩ := by
  rw [run.eq_def]
  simp only [hr, ha, hp]

/-! Association list and blank-node label facts. -/

theorem pyLookup_append_some {l1 l2 : List (String × JValue)} {key : String} {v : JValue}
    (h : pyLookup l1 key = some v) : pyLookup (l1 ++ l2) key = some v := by
  induction l1 with
  | nil => simp [pyLookup] at h
  | cons kv rest ih =>
      obtain ⟨k, w⟩ := kv
      simp only [pyLookup, List.cons_append] at h ⊢
      split at h <;> simp_all [pyLookup]

theorem pyLookup_append_none {l1 : List (String × JValue)} (l2 : List (String × JValue))
    {key : String} (h : pyLookup l1 key = none) :
    pyLookup (l1 ++ l2) key = pyLookup l2 key := by
  induction l1 with
  | nil => simp
  | cons kv rest ih =>
      obtain ⟨k, w⟩ := kv
      simp only [pyLookup, List.cons_append] at h ⊢
      split at h <;> simp_all [pyLookup]

theorem pyLookup_setKey_self (l : List (String × JValue)) (key : String) (v : JValue) :
    pyLookup (setKey l key v) key = some v := by
  induction l with
  | nil => simp [setKey, pyLookup]
  | cons kv rest ih =>
      obtain ⟨k, w⟩ := kv
      simp only [setKey]
      split <;> simp_all [pyLookup]

theorem setKey_of_none {l : List (String × JValue)} {key : String} (v : JValue)
    (h : pyLookup l key = none) : setKey l key v = l ++ [(key, v)] := by
  induction l with
  | nil => simp [setKey]
  | cons kv rest ih =>
      obtain ⟨k, w⟩ := kv
      simp only [pyLookup] at h
      split at h
      · simp at h
      · simp_all [setKey]

theorem genBNode_ne_empty (n : Nat) : ¬ genBNode n = "" := by
  simp [genBNode, String.ext_iff]

theorem bs_any (n : Nat) : (List.replicate n 'b').any pySpace = false := by
  induction n with
  | zero => simp
  | succ m ih => simp [List.replicate_succ, ih, pySpace]

theorem bs_contains (n : Nat) : (List.replicate n 'b').contains '>' = false := by
  induction n with
  | zero => simp
  | succ m ih => simp_all [List.replicate_succ]

theorem bs_getLast (n : Nat) : ('b' :: List.replicate n 'b').getLast? = some 'b' := by
  induction n with
  | zero => rfl
  | succ m ih => rw [List.replicate_succ, List.getLast?_cons_cons]; exact ih

theorem iriMatch_genBNode (n : Nat) :
    iriMatch? (genBNode n) =
      some ⟨"", "_", "", "", String.mk ('b' :: List.replicate n 'b'), ""⟩ := by
  simp [genBNode, iriMatch?, wordChar, slashTail?, tMatch?, tCore?, bs_any, bs_contains,
    bs_getLast, pySpace, List.takeWhile, List.dropWhile]

theorem termToIri_genBNode (n : Nat) (c : Ctx) (h : c "_" = none) :
    termToIri (genBNode n) c = .ok (.str (genBNode n)) := by
  simp [termToIri, iriMatch_genBNode, h]

theorem processObject_genBNode (n : Nat) (c : Ctx) (h : c "_" = none) :
    processObject (.str (genBNode n)) c = .ok (.str (genBNode n)) := by
  simp [processObject, iriMatch_genBNode, termToIri_genBNode n c h]

/-! Structure of the key-iteration results. -/

theorem members_upd_obj (s : JValue) (kvs : List (String × JValue)) (c : Ctx) (g : Nat) :
    (run (.members s kvs) c g).upd = .obj (asObj (run (.members s kvs) c g).upd) := by
  match kvs with
  | [] => rw [runMembers_nil]; rfl
  | (k, v) :: rest =>
      by_cases hk : (k = "#" ∨ k = "@")
      · rw [runMembers_skip s k v rest c g hk]; rfl
      · match hp : (if k = "a" then Except.ok (JValue.str rdfType) else termToIri k c) with
        | .error e0 => rw [runMembers_propErr s k v rest c g e0 hk hp]; rfl
        | .ok p =>
            match hr : (run (.value s p v) c g).err with
            | some e0 => rw [runMembers_cons_err s k v p rest c g e0 hk hp hr]; rfl
            | none => rw [runMembers_cons_ok s k v p rest c g hk hp hr]; rfl

theorem members_keyNone (s : JValue) (kvs : List (String × JValue)) (c : Ctx) (g : Nat)
    (key : String) (h : pyLookup kvs key = none) :
    pyLookup (asObj (run (.members s kvs) c g).upd) key = none := by
  induction kvs generalizing g with
  | nil => rw [runMembers_nil]; simpa using h
  | cons kv rest ih =>
      obtain ⟨k, v⟩ := kv
      have hk' : ¬ k = key := by
        intro hkk
        simp [pyLookup, hkk] at h
      have hrest : pyLookup rest key = none := by
        simpa [pyLookup, hk'] using h
      by_cases hk : (k = "#" ∨ k = "@")
      · rw [runMembers_skip s k v rest c g hk]
        simpa [asObj, pyLookup, hk'] using ih g hrest
      · match hp : (if k = "a" then Except.ok (JValue.str rdfType) else termToIri k c) with
        | .error e0 =>
            rw [runMembers_propErr s k v rest c g e0 hk hp]
            simpa [asObj, pyLookup, hk'] using hrest
        | .ok p =>
            match hr : (run (.value s p v) c g).err with
            | some e0 =>
                rw [runMembers_cons_err s k v p rest c g e0 hk hp hr]
                simpa [asObj, pyLookup, hk'] using hrest
            | none =>
                rw [runMembers_cons_ok s k v p rest c g hk hp hr]
                simpa [asObj, pyLookup, hk'] using ih (run (.value s p v) c g).gen hrest

theorem runMembers_append_ok (s : JValue) (kvs1 kvs2 : List (String × JValue)) (c : Ctx)
    (g : Nat) (h : (run (.members s kvs1) c g).err = none) :
    run (.members s (kvs1 ++ kvs2)) c g =
      ⟨(run (.members s kvs1) c g).ts ++
          (run (.members s kvs2) c (run (.members s kvs1) c g).gen).ts,
        (run (.members s kvs2) c (run (.members s kvs1) c g).gen).err,
        .obj (asObj (run (.members s kvs1) c g).upd ++
          asObj (run (.members s kvs2) c (run (.members s kvs1) c g).gen).upd),
        (run (.members s kvs2) c (run (.members s kvs1) c g).gen).gen⟩ := by
  induction kvs1 generalizing g with
  | nil =>
      simp only [List.nil_append, runMembers_nil]
      simp only [asObj_obj, List.nil_append]
      rw [← members_upd_obj]
  | cons kv rest ih =>
      obtain ⟨k, v⟩ := kv
      by_cases hk : (k = "#" ∨ k = "@")
      · rw [runMembers_skip s k v rest c g hk] at h
        simp only [] at h
        rw [List.cons_append, runMembers_skip s k v (rest ++ kvs2) c g hk,
          runMembers_skip s k v rest c g hk, ih g h]
        simp [asObj_obj]
      · match hp : (if k = "a" then Except.ok (JValue.str rdfType) else termToIri k c) with
        | .error e0 =>
            rw [runMembers_propErr s k v rest c g e0 hk hp] at h
            simp at h
        | .ok p =>
            match hr : (run (.value s p v) c g).err with
            | some e0 =>
                rw [runMembers_cons_err s k v p rest c g e0 hk hp hr] at h
                simp at h
            | none =>
                rw [runMembers_cons_ok s k v p rest c g hk hp hr] at h
                simp only [] at h
                rw [List.cons_append, runMembers_cons_ok s k v p (rest ++ kvs2) c g hk hp hr,
                  runMembers_cons_ok s k v p rest c g hk hp hr,
                  ih (run (.value s p v) c g).gen h]
                simp [asObj_obj, List.append_assoc]

theorem runMembers_append_err (s : JValue) (kvs1 kvs2 : List (String × JValue)) (c : Ctx)
    (g : Nat) (e : String) (h : (run (.members s kvs1) c g).err = some e) :
    run (.members s (kvs1 ++ kvs2)) c g =
      ⟨(run (.members s kvs1) c g).ts, some e,
        .obj (asObj (run (.members s kvs1) c g).upd ++ kvs2),
        (run (.members s kvs1) c g).gen⟩ := by
  induction kvs1 generalizing g with
  | nil =>
      rw [runMembers_nil] at h
      simp at h
  | cons kv rest ih =>
      obtain ⟨k, v⟩ := kv
      by_cases hk : (k = "#" ∨ k = "@")
      · rw [runMembers_skip s k v rest c g hk] at h
        simp only [] at h
        rw [List.cons_append, runMembers_skip s k v (rest ++ kvs2) c g hk,
          runMembers_skip s k v rest c g hk, ih g h]
        simp [asObj_obj]
      · match hp : (if k = "a" then Except.ok (JValue.str rdfType) else termToIri k c) with
        | .error e0 =>
            rw [runMembers_propErr s k v rest c g e0 hk hp] at h
            simp only [] at h
            rw [List.cons_append, runMembers_propErr s k v (rest ++ kvs2) c g e0 hk hp,
              runMembers_propErr s k v rest c g e0 hk hp]
            simp only [Option.some.injEq] at h
            simp [asObj_obj, h]
        | .ok p =>
            match hr : (run (.value s p v) c g).err with
            | some e0 =>
                rw [runMembers_cons_err s k v p rest c g e0 hk hp hr] at h
                simp only [] at h
                rw [List.cons_append, runMembers_cons_err s k v p (rest ++ kvs2) c g e0 hk hp hr,
                  runMembers_cons_err s k v p rest c g e0 hk hp hr]
                simp only [Option.some.injEq] at h
                simp [asObj_obj, h]
            | none =>
                rw [runMembers_cons_ok s k v p rest c g hk hp hr] at h
                simp only [] at h
                rw [List.cons_append, runMembers_cons_ok s k v p (rest ++ kvs2) c g hk hp hr,
                  runMembers_cons_ok s k v p rest c g hk hp hr,
                  ih (run (.value s p v) c g).gen h]
                simp [asObj_obj, List.append_assoc]

/-- The context active inside an object: the local context merged over
the active one when the object carries a "#" member that is itself an
object. -/
def mergedCtx (kvs : List (String × JValue)) (c : Ctx) : Ctx :=
  match pyLookup kvs "#" with
  | some (.obj lkvs) => mergeContexts (ctxOfObj lkvs) c
  | _ => c

/-- The "#" member, if present, is an object (otherwise the walk
raises before reaching the subject step). -/
def ctxStepOK (kvs : List (String × JValue)) : Prop :=
  match pyLookup kvs "#" with
  | some (.obj _) => True
  | none => True
  | _ => False

theorem objBody_noAt_preset (kvs : List (String × JValue)) (c1 : Ctx) (g : Nat)
    (hat : pyLookup kvs "@" = none) (hu : c1 "_" = none) :
    run (.objBody kvs) c1 g =
      run (.objBody (kvs ++ [("@", .str (genBNode g))])) c1 (g + 1) := by
  have hat' : pyLookup (kvs ++ [("@", .str (genBNode g))]) "@" = some (.str (genBNode g)) := by
    rw [pyLookup_append_none _ hat]
    simp [pyLookup]
  rw [runObjBody_noSubj kvs c1 g hat]
  rw [runObjBody_str (kvs ++ [("@", JValue.str (genBNode g))]) c1 (g + 1) (genBNode g)
    (JValue.str (genBNode g)) hat' (genBNode_ne_empty g) (termToIri_genBNode g c1 hu)]
  have hskip : run (.members (.str (genBNode g)) [("@", .str (genBNode g))]) c1
      (run (.members (.str (genBNode g)) kvs) c1 (g + 1)).gen =
      ⟨[], none, .obj [("@", .str (genBNode g))],
        (run (.members (.str (genBNode g)) kvs) c1 (g + 1)).gen⟩ := by
    rw [runMembers_skip (.str (genBNode g)) "@" (.str (genBNode g)) [] c1 _ (Or.inr rfl)]
    simp [runMembers_nil]
  have hsk : setKey (asObj (run (.members (.str (genBNode g)) kvs) c1 (g + 1)).upd) "@"
      (.str (genBNode g)) =
      asObj (run (.members (.str (genBNode g)) kvs) c1 (g + 1)).upd ++
        [("@", .str (genBNode g))] :=
    setKey_of_none _ (members_keyNone _ _ _ _ _ hat)
  match hm : (run (.members (.str (genBNode g)) kvs) c1 (g + 1)).err with
  | none =>
      rw [runMembers_append_ok (.str (genBNode g)) kvs [("@", .str (genBNode g))] c1 (g + 1) hm,
        hskip]
      simp [hsk, hm]
  | some e =>
      rw [runMembers_append_err (.str (genBNode g)) kvs [("@", .str (genBNode g))] c1 (g + 1) e hm]
      simp [hsk, hm]

theorem one_noAt_preset (kvs : List (String × JValue)) (c : Ctx) (g : Nat)
    (hat : pyLookup kvs "@" = none) (hctx : ctxStepOK kvs)
    (hu : mergedCtx kvs c "_" = none) :
    run (.one (.obj kvs)) c g =
      run (.one (.obj (kvs ++ [("@", .str (genBNode g))]))) c (g + 1) := by
  match hcs : pyLookup kvs "#" with
  | some (.obj lkvs) =>
      have hcs' : pyLookup (kvs ++ [("@", .str (genBNode g))]) "#" = some (.obj lkvs) :=
        pyLookup_append_some hcs
      rw [runOne_ctx kvs lkvs c g hcs, runOne_ctx _ lkvs c (g + 1) hcs']
      apply objBody_noAt_preset kvs _ g hat
      simpa [mergedCtx, hcs] using hu
  | none =>
      have hcs' : pyLookup (kvs ++ [("@", .str (genBNode g))]) "#" = none := by
        rw [pyLookup_append_none _ hcs]
        simp [pyLookup]
      rw [runOne_noCtx kvs c g hcs, runOne_noCtx _ c (g + 1) hcs']
      apply objBody_noAt_preset kvs c g hat
      simpa [mergedCtx, hcs] using hu
  | some .null => simp [ctxStepOK, hcs] at hctx
  | some (.bool b) => simp [ctxStepOK, hcs] at hctx
  | some (.int n) => simp [ctxStepOK, hcs] at hctx
  | some (.float nz lex) => simp [ctxStepOK, hcs] at hctx
  | some (.str st) => simp [ctxStepOK, hcs] at hctx
  | some (.arr xs) => simp [ctxStepOK, hcs] at hctx

theorem one_noAt_recordsLabel (kvs : List (String × JValue)) (c : Ctx) (g : Nat)
    (hat : pyLookup kvs "@" = none) (hctx : ctxStepOK kvs) :
    pyLookup (asObj (run (.one (.obj kvs)) c g).upd) "@" = some (.str (genBNode g)) := by
  have step : ∀ c1 : Ctx,
      pyLookup (asObj (run (.objBody kvs) c1 g).upd) "@" = some (.str (genBNode g)) := by
    intro c1
    rw [runObjBody_noSubj kvs c1 g hat]
    simp [pyLookup_setKey_self]
  match hcs : pyLookup kvs "#" with
  | some (.obj lkvs) => rw [runOne_ctx kvs lkvs c g hcs]; exact step _
  | none => rw [runOne_noCtx kvs c g hcs]; exact step _
  | some .null => simp [ctxStepOK, hcs] at hctx
  | some (.bool b) => simp [ctxStepOK, hcs] at hctx
  | some (.int n) => simp [ctxStepOK, hcs] at hctx
  | some (.float nz lex) => simp [ctxStepOK, hcs] at hctx
  | some (.str st) => simp [ctxStepOK, hcs] at hctx
  | some (.arr xs) => simp [ctxStepOK, hcs] at hctx

theorem value_noAt_link (s p : JValue) (okvs : List (String × JValue)) (c : Ctx) (g : Nat)
    (hat : pyLookup okvs "@" = none) (hctx : ctxStepOK okvs) (hu : c "_" = none)
    (hr : (run (.one (.obj okvs)) c g).err = none) :
    run (.value s p (.obj okvs)) c g =
      ⟨(run (.one (.obj okvs)) c g).ts ++ [⟨s, p, .str (genBNode g)⟩], none,
        (run (.one (.obj okvs)) c g).upd, (run (.one (.obj okvs)) c g).gen⟩ :=
  runValue_obj_ok s p okvs c g (.str (genBNode g)) (.str (genBNode g)) hr
    (one_noAt_recordsLabel okvs c g hat hctx) (processObject_genBNode g c hu)

/-- Processor.triples: the call parses the document with the external
JSON parser (line 126, taken here as a parameter) and only then builds
the generator for the walk (line 127).  The outer Except is resolved at
call time; the pair (triples yielded before any error, optional
terminal error) is the denotation of the generator consumed during
iteration. -/
def triplesP (parse : String → Except String JValue) (doc : String) :
    Except String (List Triple × Option String) :=
  match parse doc with
  | .error e => .error e
  | .ok item =>
      .ok ((run (.one item) defaultContext 0).ts, (run (.one item) defaultContext 0).err)

/-- C9: merging a local context L into an active context A yields a new
context M with M[k] = L[k] for k bound in L and M[k] = A[k] otherwise;
the model is pure, so neither input is mutated; and when L is contained
in A (same keys, same values) the merge equals A (context equality is
the extensional equality of Python dicts). -/
theorem C9_merge_contexts :
    ∀ L A : Ctx,
      (∀ k v, L k = some v → mergeContexts L A k = some v) ∧
      (∀ k, L k = none → mergeContexts L A k = A k) ∧
      ((∀ k v, L k = some v → A k = some v) → mergeContexts L A = A) := by
  intro L A
  refine ⟨?_, ?_, ?_⟩
  · intro k v h
    simp [mergeContexts, h]
  · intro k h
    simp [mergeContexts, h]
  · intro hsub
    funext k
    match hL : L k with
    | some v =>
        have hA := hsub k v hL
        simp [mergeContexts, hL, hA]
    | none => simp [mergeContexts, hL]

/-- Witness for C9 at a concrete local context contained in the default
context: the merge returns the bound IRI for the shared key and equals
the active context. -/
theorem C9_merge_contexts_witness :
    mergeContexts (ctxOfObj [("foaf", .str "http://xmlns.com/foaf/0.1/")]) defaultContext "foaf"
        = some (.str "http://xmlns.com/foaf/0.1/") ∧
      mergeContexts (ctxOfObj [("foaf", .str "http://xmlns.com/foaf/0.1/")]) defaultContext
        = defaultContext := by
  refine ⟨(C9_merge_contexts _ defaultContext).1 "foaf" _ rfl,
    (C9_merge_contexts _ defaultContext).2.2 ?_⟩
  intro k v hv
  simp only [ctxOfObj, pyLookup] at hv
  split at hv
  · rename_i heq
    rw [← heq]
    cases hv
    rfl
  · cases hv

/-- C10: triples(doc) parses eagerly at call time, so a malformed
document makes the call itself return the parser error (first two
conjuncts: the Except layer of the call is exactly the parser result,
before any walking happens), while term-resolution errors surface only
in the stream, after all earlier triples: the third conjunct shows the
triples of the members processed before a failing member are all in the
yielded prefix, and the fourth shows a document whose first member
yields a triple and whose second member fails: the call succeeds and
the stream carries the triple followed by the error. -/
theorem C10_call_vs_iteration :
    (∀ (parse : String → Except String JValue) (doc e : String),
      parse doc = .error e → triplesP parse doc = .error e) ∧
    (∀ (parse : String → Except String JValue) (doc : String) (item : JValue),
      parse doc = .ok item →
      triplesP parse doc =
        .ok ((run (.one item) defaultContext 0).ts, (run (.one item) defaultContext 0).err)) ∧
    (∀ (s : JValue) (kvs1 kvs2 : List (String × JValue)) (c : Ctx) (g : Nat),
      (run (.members s kvs1) c g).err = none →
      (run (.members s (kvs1 ++ kvs2)) c g).ts =
        (run (.members s kvs1) c g).ts ++
          (run (.members s kvs2) c (run (.members s kvs1) c g).gen).ts) ∧
    (∀ parse : String → Except String JValue,
      parse "doc" = .ok (.obj [("@", .str "_:s"), ("name", .str "x"), ("bad:key", .str "y")]) →
      triplesP parse "doc" =
        .ok ([⟨.str "_:s", .str "http://xmlns.com/foaf/0.1/name", .str "x"⟩],
          some "The current context is missing a match for bad in bad:key")) := by
  refine ⟨?_, ?_, ?_, ?_⟩
  · intro parse doc e h
    simp [triplesP, h]
  · intro parse doc item h
    simp [triplesP, h]
  · intro s kvs1 kvs2 c g h
    rw [runMembers_append_ok s kvs1 kvs2 c g h]
  · intro parse h
    have hv : run (.value (.str "_:s") (.str "http://xmlns.com/foaf/0.1/name") (.str "x"))
        defaultContext 0 =
        ⟨[⟨.str "_:s", .str "http://xmlns.com/foaf/0.1/name", .str "x"⟩], none, .str "x", 0⟩ :=
      runValue_str_ok _ _ _ _ _ _ (by decide) (by rfl)
    simp only [triplesP, h]
    rw [runOne_noCtx _ _ _ (by rfl)]
    rw [runObjBody_str _ _ _ "_:s" (.str "_:s") (by rfl) (by decide) (by rfl)]
    rw [runMembers_skip _ _ _ _ _ _ (Or.inr rfl)]
    rw [runMembers_cons_ok _ _ _ _ _ _ _ (by decide) (by rfl) (by rw [hv])]
    rw [hv]
    rw [runMembers_propErr _ _ _ _ _ _
      "The current context is missing a match for bad in bad:key" (by decide) (by rfl)]
    rfl

/-- Witness for C10 at concrete inputs: a parse failure is returned by
the call itself, the empty member prefix satisfies the prefix law, and
the two-member document delivers one triple and then the error inside
the stream. -/
theorem C10_call_vs_iteration_witness :
    triplesP (fun _ => .error "Unterminated string") "\x7bbad" = .error "Unterminated string" ∧
    (run (.members (.str "_:s") ([] ++ [("a", .str "Person")])) defaultContext 0).ts =
      (run (.members (.str "_:s") []) defaultContext 0).ts ++
        (run (.members (.str "_:s") [("a", .str "Person")]) defaultContext
          (run (.members (.str "_:s") []) defaultContext 0).gen).ts ∧
    triplesP (fun _ => .ok (.obj [("@", .str "_:s"), ("name", .str "x"), ("bad:key", .str "y")]))
        "doc" =
      .ok ([⟨.str "_:s", .str "http://xmlns.com/foaf/0.1/name", .str "x"⟩],
        some "The current context is missing a match for bad in bad:key") :=
  ⟨C10_call_vs_iteration.1 _ "\x7bbad" _ rfl,
    C10_call_vs_iteration.2.2.1 (.str "_:s") [] [("a", .str "Person")] defaultContext 0
      (by rw [runMembers_nil]),
    C10_call_vs_iteration.2.2.2 _ rfl⟩

/-- C3 (code versus claim): the boolean false is falsy in Python, so
the member ("active", false) falls into the null branch of lines
203-207 and emits no triple at all, and a float is rendered with
datatype xsd:decimal (line 286), not xsd:float; a boolean true is
rendered as a single concatenated string.  The first conjunct
evaluates the processor on a document whose only member value is
false: no triple is emitted, against the one triple the claim
requires. -/
theorem C3_code_eval :
    (run (.one (.obj [("@", .str "_:foo"), ("active", .bool false)])) defaultContext 0).ts = [] ∧
    (run (.one (.obj [("@", .str "_:foo"), ("cups", .float true "5.300000")]))
        defaultContext 0).ts =
      [⟨.str "_:foo", .str "http://example.org/default-vocab#cups",
        .str "5.300000^^http://www.w3.org/2001/XMLSchema#decimal"⟩] := by
  constructor
  · rw [runOne_noCtx _ _ _ (by rfl)]
    rw [runObjBody_str _ _ _ "_:foo" (.str "_:foo") (by rfl) (by decide) (by rfl)]
    rw [runMembers_skip _ _ _ _ _ _ (Or.inr rfl)]
    rw [runMembers_cons_ok _ _ _ _ _ _ _ (by decide) (by rfl) (by rw [runValue_boolFalse])]
    rw [runValue_boolFalse, runMembers_nil]
    rfl
  · rw [runOne_noCtx _ _ _ (by rfl)]
    rw [runObjBody_str _ _ _ "_:foo" (.str "_:foo") (by rfl) (by decide) (by rfl)]
    rw [runMembers_skip _ _ _ _ _ _ (Or.inr rfl)]
    rw [runMembers_cons_ok _ _ _ _ _ _ _ (by decide) (by rfl) (by rw [runValue_float])]
    rw [runValue_float, runMembers_nil]
    rfl

/-- C4 (code versus claim): a typed-literal-shaped string value
lit^^DT is not split by this revision: the emitted object is the whole
string, verbatim, with no unescaping and no datatype resolution (the
string branch of __value_to_typed_literal returns its input, lines
276-279). -/
theorem C4_code_eval :
    (run (.one (.obj [("@", .str "_:s"),
        ("dc:modified", .str "2010-05-29T14:17:39+02:00^^xsd:dateTime")])) defaultContext 0).ts =
      [⟨.str "_:s", .str "http://purl.org/dc/terms/modified",
        .str "2010-05-29T14:17:39+02:00^^xsd:dateTime"⟩] := by
  have hv : run (.value (.str "_:s") (.str "http://purl.org/dc/terms/modified")
      (.str "2010-05-29T14:17:39+02:00^^xsd:dateTime")) defaultContext 0 =
      ⟨[⟨.str "_:s", .str "http://purl.org/dc/terms/modified",
        .str "2010-05-29T14:17:39+02:00^^xsd:dateTime"⟩], none,
        .str "2010-05-29T14:17:39+02:00^^xsd:dateTime", 0⟩ :=
    runValue_str_ok _ _ _ _ _ _ (by decide) (by rfl)
  rw [runOne_noCtx _ _ _ (by rfl)]
  rw [runObjBody_str _ _ _ "_:s" (.str "_:s") (by rfl) (by decide) (by rfl)]
  rw [runMembers_skip _ _ _ _ _ _ (Or.inr rfl)]
  rw [runMembers_cons_ok _ _ _ (.str "http://purl.org/dc/terms/modified") _ _ _
    (by decide) (by rfl) (by rw [hv])]
  rw [hv, runMembers_nil]
  rfl

/-- C5 (code versus claim): a language-tagged string value lit@lang is
not split by this revision either: the emitted object is the whole
string with the tag still attached, and the triple carries no language
or datatype field at all. -/
theorem C5_code_eval :
    (run (.one (.obj [("@", .str "_:s"), ("skos:prefLabel", .str "4-H clubs@en")]))
        defaultContext 0).ts =
      [⟨.str "_:s", .str "http://www.w3.org/2004/02/skos/core#prefLabel",
        .str "4-H clubs@en"⟩] := by
  have hv : run (.value (.str "_:s") (.str "http://www.w3.org/2004/02/skos/core#prefLabel")
      (.str "4-H clubs@en")) defaultContext 0 =
      ⟨[⟨.str "_:s", .str "http://www.w3.org/2004/02/skos/core#prefLabel",
        .str "4-H clubs@en"⟩], none, .str "4-H clubs@en", 0⟩ :=
    runValue_str_ok _ _ _ _ _ _ (by decide) (by rfl)
  rw [runOne_noCtx _ _ _ (by rfl)]
  rw [runObjBody_str _ _ _ "_:s" (.str "_:s") (by rfl) (by decide) (by rfl)]
  rw [runMembers_skip _ _ _ _ _ _ (Or.inr rfl)]
  rw [runMembers_cons_ok _ _ _ (.str "http://www.w3.org/2004/02/skos/core#prefLabel") _ _ _
    (by decide) (by rfl) (by rw [hv])]
  rw [hv, runMembers_nil]
  rfl

/-- C6 (code versus claim): when the "@" member is present but null,
the subject variable keeps the value None (lines 163-166 fall through
without generating anything), so the emitted triple carries None as its
subject and the fresh-label supply is never consulted (the final
counter is still 0): no fresh blank node is used. -/
theorem C6_code_eval :
    run (.one (.obj [("@", .null), ("name", .str "Bob")])) defaultContext 0 =
      ⟨[⟨.null, .str "http://xmlns.com/foaf/0.1/name", .str "Bob"⟩], none,
        .obj [("@", .null), ("name", .str "Bob")], 0⟩ := by
  have hv : run (.value .null (.str "http://xmlns.com/foaf/0.1/name") (.str "Bob"))
      defaultContext 0 =
      ⟨[⟨.null, .str "http://xmlns.com/foaf/0.1/name", .str "Bob"⟩], none, .str "Bob", 0⟩ :=
    runValue_str_ok _ _ _ _ _ _ (by decide) (by rfl)
  rw [runOne_noCtx _ _ _ (by rfl)]
  rw [runObjBody_null _ _ _ (by rfl)]
  rw [runMembers_skip _ _ _ _ _ _ (Or.inr rfl)]
  rw [runMembers_cons_ok _ _ _ _ _ _ _ (by decide) (by rfl) (by rw [hv])]
  rw [hv, runMembers_nil]
  rfl

/-- C7 (code versus claim): a wrapped relative reference such as <foo>
does not match the IRI regex (no colon), so it falls through to the
bare-term branch and is concatenated to the default vocabulary IRI,
angle brackets included; the "#base" binding of the local context is
never consulted and no MissingBase error exists: the walk succeeds with
err = none. -/
theorem C7_code_eval :
    run (.one (.obj [("#", .obj [("#base", .str "http://b/")]),
        ("@", .str "<foo>"), ("name", .str "x")])) defaultContext 0 =
      ⟨[⟨.str "http://example.org/default-vocab#<foo>",
          .str "http://xmlns.com/foaf/0.1/name", .str "x"⟩], none,
        .obj [("#", .obj [("#base", .str "http://b/")]),
          ("@", .str "<foo>"), ("name", .str "x")], 0⟩ := by
  have hv : run (.value (.str "http://example.org/default-vocab#<foo>")
      (.str "http://xmlns.com/foaf/0.1/name") (.str "x"))
      (mergeContexts (ctxOfObj [("#base", .str "http://b/")]) defaultContext) 0 =
      ⟨[⟨.str "http://example.org/default-vocab#<foo>",
        .str "http://xmlns.com/foaf/0.1/name", .str "x"⟩], none, .str "x", 0⟩ :=
    runValue_str_ok _ _ _ _ _ _ (by decide) (by rfl)
  rw [runOne_ctx _ [("#base", .str "http://b/")] _ _ (by rfl)]
  rw [runObjBody_str _ _ _ "<foo>" (.str "http://example.org/default-vocab#<foo>")
    (by rfl) (by decide) (by rfl)]
  rw [runMembers_skip _ _ _ _ _ _ (Or.inl rfl)]
  rw [runMembers_skip _ _ _ _ _ _ (Or.inr rfl)]
  rw [runMembers_cons_ok _ _ _ _ _ _ _ (by decide) (by rfl) (by rw [hv])]
  rw [hv, runMembers_nil]
  rfl

/-- C1 counterexample: the claim fails at two concrete documents.  A
blank-node key "_:foo" is returned unchanged by the property path, so
the emitted property starts with the two characters of a blank-node
label; and a context binding a prefix to a string without a colon makes
the emitted property contain no colon at all. -/
theorem C1_counterexample :
    ((run (.one (.obj [("@", .str "_:s"), ("_:foo", .str "x")])) defaultContext 0).ts =
      [⟨.str "_:s", .str "_:foo", .str "x"⟩] ∧ ("_:foo").data.take 2 = ['_', ':']) ∧
    ((run (.one (.obj [("#", .obj [("p", .str "noColon")]), ("@", .str "_:s"),
        ("p:x", .int 1)])) defaultContext 0).ts =
      [⟨.str "_:s", .str "noColonx", .str "1^^http://www.w3.org/2001/XMLSchema#integer"⟩] ∧
      ("noColonx").data.contains ':' = false) := by
  refine ⟨⟨?_, by decide⟩, ⟨?_, by decide⟩⟩
  · have hv : run (.value (.str "_:s") (.str "_:foo") (.str "x")) defaultContext 0 =
        ⟨[⟨.str "_:s", .str "_:foo", .str "x"⟩], none, .str "x", 0⟩ :=
      runValue_str_ok _ _ _ _ _ _ (by decide) (by rfl)
    rw [runOne_noCtx _ _ _ (by rfl)]
    rw [runObjBody_str _ _ _ "_:s" (.str "_:s") (by rfl) (by decide) (by rfl)]
    rw [runMembers_skip _ _ _ _ _ _ (Or.inr rfl)]
    rw [runMembers_cons_ok _ _ _ (.str "_:foo") _ _ _ (by decide) (by rfl) (by rw [hv])]
    rw [hv, runMembers_nil]
    rfl
  · rw [runOne_ctx _ [("p", .str "noColon")] _ _ (by rfl)]
    rw [runObjBody_str _ _ _ "_:s" (.str "_:s") (by rfl) (by decide) (by rfl)]
    rw [runMembers_skip _ _ _ _ _ _ (Or.inl rfl)]
    rw [runMembers_skip _ _ _ _ _ _ (Or.inr rfl)]
    rw [runMembers_cons_ok _ _ _ (.str "noColonx") _ _ _ (by decide) (by rfl)
      (by rw [runValue_int _ _ _ _ _ (by decide)])]
    rw [runValue_int _ _ _ _ _ (by decide), runMembers_nil]
    rfl

/-- C2 counterexample: with the local context binding the whole key
"foaf:name" to http://special#n, the subject reference "foaf:name" is
still expanded as a CURIE through the "foaf" binding, not looked up as
a whole key: the emitted subject is the FOAF name IRI, not the special
binding. -/
theorem C2_counterexample :
    (run (.one (.obj [("#", .obj [("foaf:name", .str "http://special#n")]),
        ("@", .str "foaf:name"), ("name", .str "x")])) defaultContext 0).ts =
      [⟨.str "http://xmlns.com/foaf/0.1/name", .str "http://xmlns.com/foaf/0.1/name",
        .str "x"⟩] ∧
    ¬ (JValue.str "http://xmlns.com/foaf/0.1/name" = JValue.str "http://special#n") := by
  refine ⟨?_, by simp⟩
  have hv : run (.value (.str "http://xmlns.com/foaf/0.1/name")
      (.str "http://xmlns.com/foaf/0.1/name") (.str "x"))
      (mergeContexts (ctxOfObj [("foaf:name", .str "http://special#n")]) defaultContext) 0 =
      ⟨[⟨.str "http://xmlns.com/foaf/0.1/name", .str "http://xmlns.com/foaf/0.1/name",
        .str "x"⟩], none, .str "x", 0⟩ :=
    runValue_str_ok _ _ _ _ _ _ (by decide) (by rfl)
  rw [runOne_ctx _ [("foaf:name", .str "http://special#n")] _ _ (by rfl)]
  rw [runObjBody_str _ _ _ "foaf:name" (.str "http://xmlns.com/foaf/0.1/name")
    (by rfl) (by decide) (by rfl)]
  rw [runMembers_skip _ _ _ _ _ _ (Or.inl rfl)]
  rw [runMembers_skip _ _ _ _ _ _ (Or.inr rfl)]
  rw [runMembers_cons_ok _ _ _ (.str "http://xmlns.com/foaf/0.1/name") _ _ _
    (by decide) (by rfl) (by rw [hv])]
  rw [hv, runMembers_nil]
  rfl

/-- C2 amended: shape classification runs before whole-key context
lookup.  Whenever a string matches the IRI regex with a bound,
non-underscore prefix (and is neither angle-wrapped nor an
irrelative-ref), both the resolver and the object classifier expand it
as a CURIE, prefix binding plus reference, regardless of whether the
whole string is itself a key of the active context; whole-string
context lookup applies only to strings the regex does not match. -/
theorem C2_amended :
    ∀ (c : Ctx) (s : String) (g : IriG) (v : String),
      iriMatch? s = some g →
      ¬ (g.g1 = "<" ∧ g.g6 = ">") →
      ¬ g.g3 = "/" →
      c g.g2 = some (.str v) →
      termToIri s c = .ok (.str (v ++ g.g5)) ∧
      processObject (.str s) c = .ok (.str (v ++ g.g5)) := by
  intro c s g v hm hw hs hc
  have hb : (decide (g.g1 = "<") && decide (g.g6 = ">")) = false := by
    by_cases h1 : g.g1 = "<"
    · by_cases h2 : g.g6 = ">"
      · exact absurd ⟨h1, h2⟩ hw
      · simp [h2]
    · simp [h1]
  have h1 : termToIri s c = .ok (.str (v ++ g.g5)) := by
    simp [termToIri, hm, hb, hs, hc]
  refine ⟨h1, ?_⟩
  simp [processObject, hm, h1]

/-- Witness for C2 amended: the context binds both the prefix foaf and
the whole key foaf:name; resolution still returns the CURIE expansion
through the prefix. -/
theorem C2_amended_witness :
    mergeContexts (ctxOfObj [("foaf:name", .str "http://special#n")]) defaultContext
        "foaf:name" = some (.str "http://special#n") ∧
    termToIri "foaf:name"
        (mergeContexts (ctxOfObj [("foaf:name", .str "http://special#n")]) defaultContext) =
      .ok (.str ("http://xmlns.com/foaf/0.1/" ++ "name")) :=
  ⟨rfl,
    (C2_amended (mergeContexts (ctxOfObj [("foaf:name", .str "http://special#n")])
        defaultContext) "foaf:name" ⟨"", "foaf", "", "", "name", ""⟩
        "http://xmlns.com/foaf/0.1/" (by decide) (by decide) (by decide) rfl).1⟩

/-- C8 counterexample: when the active context binds the prefix
underscore, the generated label of an inner anonymous object is still
used as the subject of the inner triples, but the linking triple of the
enclosing object re-resolves the recorded label through
__process_object, which expands it as a CURIE through the underscore
binding: the linking object http://x#bb is not the inner label _:bb. -/
theorem C8_counterexample :
    (run (.one (.obj [("#", .obj [("_", .str "http://x#")]),
        ("k", .obj [("name", .str "Bob")])])) defaultContext 0).ts =
      [⟨.str "_:bb", .str "http://xmlns.com/foaf/0.1/name", .str "Bob"⟩,
        ⟨.str "_:b", .str "http://example.org/default-vocab#k", .str "http://x#bb"⟩] ∧
    ¬ (JValue.str "http://x#bb" = JValue.str "_:bb") := by
  refine ⟨?_, by simp⟩
  have hv2 : run (.value (.str (genBNode 1)) (.str "http://xmlns.com/foaf/0.1/name")
      (.str "Bob")) (mergeContexts (ctxOfObj [("_", .str "http://x#")]) defaultContext) 2 =
      ⟨[⟨.str (genBNode 1), .str "http://xmlns.com/foaf/0.1/name", .str "Bob"⟩], none,
        .str "Bob", 2⟩ :=
    runValue_str_ok _ _ _ _ _ _ (by decide) (by rfl)
  have hone : run (.one (.obj [("name", .str "Bob")]))
      (mergeContexts (ctxOfObj [("_", .str "http://x#")]) defaultContext) 1 =
      ⟨[⟨.str (genBNode 1), .str "http://xmlns.com/foaf/0.1/name", .str "Bob"⟩], none,
        .obj [("name", .str "Bob"), ("@", .str (genBNode 1))], 2⟩ := by
    rw [runOne_noCtx _ _ _ (by rfl)]
    rw [runObjBody_noSubj _ _ _ (by rfl)]
    rw [runMembers_cons_ok _ _ _ (.str "http://xmlns.com/foaf/0.1/name") _ _ _
      (by decide) (by rfl) (by rw [hv2])]
    rw [hv2, runMembers_nil]
    rfl
  have hval : run (.value (.str (genBNode 0)) (.str "http://example.org/default-vocab#k")
      (.obj [("name", .str "Bob")]))
      (mergeContexts (ctxOfObj [("_", .str "http://x#")]) defaultContext) 1 =
      ⟨[⟨.str (genBNode 1), .str "http://xmlns.com/foaf/0.1/name", .str "Bob"⟩,
        ⟨.str (genBNode 0), .str "http://example.org/default-vocab#k", .str "http://x#bb"⟩],
        none, .obj [("name", .str "Bob"), ("@", .str (genBNode 1))], 2⟩ := by
    rw [runValue_obj_ok _ _ _ _ _ (.str (genBNode 1)) (.str "http://x#bb")
      (by rw [hone]) (by rw [hone]; rfl) (by rfl)]
    rw [hone]
    rfl
  rw [runOne_ctx _ [("_", .str "http://x#")] _ _ (by rfl)]
  rw [runObjBody_noSubj _ _ _ (by rfl)]
  rw [runMembers_skip _ _ _ _ _ _ (Or.inl rfl)]
  rw [runMembers_cons_ok _ _ _ (.str "http://example.org/default-vocab#k") _ _ _
    (by decide) (by rfl) (by rw [hval])]
  rw [hval, runMembers_nil]
  rfl

theorem mergedCtx_under_none (kvs : List (String × JValue)) (c : Ctx)
    (hu : mergedCtx kvs c "_" = none) : c "_" = none := by
  unfold mergedCtx at hu
  match hcs : pyLookup kvs "#" with
  | some (.obj lkvs) =>
      simp only [hcs] at hu
      rcases hl : ctxOfObj lkvs "_" with _ | v
      · simpa [mergeContexts, hl] using hu
      · rw [show mergeContexts (ctxOfObj lkvs) c "_" = some v from by
          simp [mergeContexts, hl]] at hu
        cases hu
  | none => simp only [hcs] at hu; exact hu
  | some .null => simp only [hcs] at hu; exact hu
  | some (.bool b) => simp only [hcs] at hu; exact hu
  | some (.int n) => simp only [hcs] at hu; exact hu
  | some (.float nz lex) => simp only [hcs] at hu; exact hu
  | some (.str st) => simp only [hcs] at hu; exact hu
  | some (.arr xs) => simp only [hcs] at hu; exact hu

/-- C8 amended: for every object without an "@" member, a single fresh
blank-node label genBNode g is drawn and recorded into the object under
"@" (first conjunct), the object then behaves exactly as if it had
carried that one label from the start, so every triple the object
contributes uses the same recorded label (second conjunct), and the
linking triple of an enclosing member carries the identical label as
its object (third conjunct) — all provided no context in scope binds
the prefix underscore; the counterexample shows the linking part fails
when the underscore is bound. -/
theorem C8_amended :
    ∀ (kvs : List (String × JValue)) (c : Ctx) (g : Nat) (s p : JValue),
      pyLookup kvs "@" = none → ctxStepOK kvs → mergedCtx kvs c "_" = none →
      (pyLookup (asObj (run (.one (.obj kvs)) c g).upd) "@" = some (.str (genBNode g))) ∧
      (run (.one (.obj kvs)) c g =
        run (.one (.obj (kvs ++ [("@", .str (genBNode g))]))) c (g + 1)) ∧
      ((run (.one (.obj kvs)) c g).err = none →
        run (.value s p (.obj kvs)) c g =
          ⟨(run (.one (.obj kvs)) c g).ts ++ [⟨s, p, .str (genBNode g)⟩], none,
            (run (.one (.obj kvs)) c g).upd, (run (.one (.obj kvs)) c g).gen⟩) := by
  intro kvs c g s p hat hctx hu
  refine ⟨one_noAt_recordsLabel kvs c g hat hctx, one_noAt_preset kvs c g hat hctx hu, ?_⟩
  intro hr
  exact value_noAt_link s p kvs c g hat hctx (mergedCtx_under_none kvs c hu) hr

/-- Witness for C8 amended at a one-member anonymous object under the
default context. -/
theorem C8_amended_witness :
    (pyLookup (asObj (run (.one (.obj [("name", .str "Bob")])) defaultContext 0).upd) "@" =
      some (.str (genBNode 0))) ∧
    (run (.one (.obj [("name", .str "Bob")])) defaultContext 0 =
      run (.one (.obj [("name", .str "Bob"), ("@", .str (genBNode 0))])) defaultContext 1) ∧
    ((run (.one (.obj [("name", .str "Bob")])) defaultContext 0).err = none →
      run (.value (.str "_:out") (.str "p0") (.obj [("name", .str "Bob")])) defaultContext 0 =
        ⟨(run (.one (.obj [("name", .str "Bob")])) defaultContext 0).ts ++
            [⟨.str "_:out", .str "p0", .str (genBNode 0)⟩], none,
          (run (.one (.obj [("name", .str "Bob")])) defaultContext 0).upd,
          (run (.one (.obj [("name", .str "Bob")])) defaultContext 0).gen⟩) :=
  C8_amended [("name", .str "Bob")] defaultContext 0 (.str "_:out") (.str "p0")
    rfl trivial rfl

/-! Decomposition of the regex matchers, used for the property
invariant. -/

theorem tCore_decomp {u p : List Char} {g6 : String}
    (h : tCore? u = some (p, g6)) :
    u = p ++ g6.data ∧ p ≠ [] ∧ p.contains '>' = false ∧ (g6 = "" ∨ g6 = ">") := by
  unfold tCore? at h
  by_cases h1 : u.isEmpty = true
  · simp [h1] at h
  rw [if_neg h1] at h
  have hne : u ≠ [] := by simpa [List.isEmpty_iff] using h1
  by_cases h2 : u.any pySpace = true
  · simp [h2] at h
  rw [if_neg h2] at h
  by_cases h3 : u.getLast? = some '>'
  · rw [if_pos h3] at h
    by_cases h4 : (u.dropLast.isEmpty || u.dropLast.contains '>') = true
    · rw [if_pos h4] at h
      simp at h
    · rw [if_neg h4] at h
      cases h
      have hlast : u.getLast hne = '>' := by
        have hh := List.getLast?_eq_getLast u hne
        rw [hh] at h3
        exact Option.some.inj h3
      have h4' : (u.dropLast.isEmpty || u.dropLast.contains '>') = false := by
        simpa using h4
      rcases Bool.or_eq_false_iff.mp h4' with ⟨ha, hb⟩
      refine ⟨?_, ?_, hb, Or.inr rfl⟩
      · conv_lhs => rw [← List.dropLast_append_getLast hne]
        simp [hlast]
      · intro hc
        rw [hc] at ha
        simp at ha
  · rw [if_neg h3] at h
    by_cases h5 : u.contains '>' = true
    · rw [if_pos h5] at h
      simp at h
    rw [if_neg h5] at h
    cases h
    exact ⟨by simp, hne, by simpa using h5, Or.inl rfl⟩

theorem tMatch_decomp {u p : List Char} {g6 : String}
    (h : tMatch? u = some (p, g6)) :
    (u = p ++ g6.data ∨ u = p ++ g6.data ++ ['\n']) ∧ p ≠ [] ∧
      p.contains '>' = false ∧ (g6 = "" ∨ g6 = ">") := by
  unfold tMatch? at h
  by_cases hnl : u.getLast? = some '\n'
  · rw [if_pos hnl] at h
    obtain ⟨he, hne, hc, hg⟩ := tCore_decomp h
    have hune : u ≠ [] := by
      intro hu
      rw [hu] at hnl
      simp at hnl
    refine ⟨Or.inr ?_, hne, hc, hg⟩
    have hlg : u.getLast hune = '\n' := by
      have hh := List.getLast?_eq_getLast u hune
      rw [hh] at hnl
      exact Option.some.inj hnl
    conv_lhs => rw [← List.dropLast_append_getLast hune]
    rw [he, hlg]
  · rw [if_neg hnl] at h
    obtain ⟨he, hne, hc, hg⟩ := tCore_decomp h
    exact ⟨Or.inl he, hne, hc, hg⟩

theorem slashTail_decomp {rest : List Char} {g3 g4 : String} {p : List Char} {g6 : String}
    (h : slashTail? rest = some (g3, g4, p, g6)) :
    (rest = g3.data ++ g4.data ++ p ++ g6.data ∨
      rest = g3.data ++ g4.data ++ p ++ g6.data ++ ['\n']) ∧
    (g3 = "" ∨ g3 = "/") ∧ (g4 = "" ∨ g4 = "/") ∧
    p ≠ [] ∧ p.contains '>' = false ∧ (g6 = "" ∨ g6 = ">") := by
  unfold slashTail? at h
  by_cases hT2 : rest.take 2 = ['/', '/']
  · rw [if_pos hT2] at h
    obtain ⟨r2, hr⟩ : ∃ r2, rest = '/' :: '/' :: r2 := by
      refine ⟨rest.drop 2, ?_⟩
      conv_lhs => rw [← List.take_append_drop 2 rest]
      rw [hT2]
      rfl
    subst hr
    simp only [List.drop_succ_cons, List.drop_zero] at h
    rcases ht1 : tMatch? r2 with _ | ⟨p1, q1⟩
    · rw [ht1] at h
      rcases ht2 : tMatch? ('/' :: r2) with _ | ⟨p2, q2⟩
      · rw [ht2] at h
        rcases ht3 : tMatch? ('/' :: '/' :: r2) with _ | ⟨p3, q3⟩
        · rw [ht3] at h
          simp at h
        · rw [ht3] at h
          cases h
          obtain ⟨he, hne, hc, hg⟩ := tMatch_decomp ht3
          refine ⟨?_, Or.inl rfl, Or.inl rfl, hne, hc, hg⟩
          rcases he with he | he
          · exact Or.inl (by simpa using he)
          · exact Or.inr (by simpa using he)
      · rw [ht2] at h
        cases h
        obtain ⟨he, hne, hc, hg⟩ := tMatch_decomp ht2
        refine ⟨?_, Or.inr rfl, Or.inl rfl, hne, hc, hg⟩
        rcases he with he | he
        · exact Or.inl (by simp [← he])
        · exact Or.inr (by simp [← he])
    · rw [ht1] at h
      cases h
      obtain ⟨he, hne, hc, hg⟩ := tMatch_decomp ht1
      refine ⟨?_, Or.inr rfl, Or.inr rfl, hne, hc, hg⟩
      rcases he with he | he
      · exact Or.inl (by simp [← he])
      · exact Or.inr (by simp [← he])
  · rw [if_neg hT2] at h
    by_cases hT1 : rest.take 1 = ['/']
    · rw [if_pos hT1] at h
      obtain ⟨r1, hr⟩ : ∃ r1, rest = '/' :: r1 := by
        refine ⟨rest.drop 1, ?_⟩
        conv_lhs => rw [← List.take_append_drop 1 rest]
        rw [hT1]
        rfl
      subst hr
      simp only [List.drop_succ_cons, List.drop_zero] at h
      rcases ht1 : tMatch? r1 with _ | ⟨p1, q1⟩
      · rw [ht1] at h
        rcases ht2 : tMatch? ('/' :: r1) with _ | ⟨p2, q2⟩
        · rw [ht2] at h
          simp at h
        · rw [ht2] at h
          cases h
          obtain ⟨he, hne, hc, hg⟩ := tMatch_decomp ht2
          refine ⟨?_, Or.inl rfl, Or.inl rfl, hne, hc, hg⟩
          rcases he with he | he
          · exact Or.inl (by simpa using he)
          · exact Or.inr (by simpa using he)
      · rw [ht1] at h
        cases h
        obtain ⟨he, hne, hc, hg⟩ := tMatch_decomp ht1
        refine ⟨?_, Or.inr rfl, Or.inl rfl, hne, hc, hg⟩
        rcases he with he | he
        · exact Or.inl (by simp [← he])
        · exact Or.inr (by simp [← he])
    · rw [if_neg hT1] at h
      rcases ht1 : tMatch? rest with _ | ⟨p1, q1⟩
      · rw [ht1] at h
        simp at h
      · rw [ht1] at h
        cases h
        obtain ⟨he, hne, hc, hg⟩ := tMatch_decomp ht1
        refine ⟨?_, Or.inl rfl, Or.inl rfl, hne, hc, hg⟩
        rcases he with he | he
        · exact Or.inl (by simpa using he)
        · exact Or.inr (by simpa using he)

theorem iriMatch_decomp {s : String} {g : IriG} (h : iriMatch? s = some g) :
    (∃ nl : List Char, (nl = [] ∨ nl = ['\n']) ∧
      s.data = g.g1.data ++ g.g2.data ++ ':' ::
        (g.g3.data ++ g.g4.data ++ g.g5.data ++ g.g6.data ++ nl)) ∧
    (g.g1 = "" ∨ g.g1 = "<") ∧ g.g2.data ≠ [] ∧ (∀ ch ∈ g.g2.data, wordChar ch = true) ∧
    (g.g3 = "" ∨ g.g3 = "/") ∧ (g.g4 = "" ∨ g.g4 = "/") ∧
    g.g5.data ≠ [] ∧ g.g5.data.contains '>' = false ∧ (g.g6 = "" ∨ g.g6 = ">") := by
  unfold iriMatch? at h
  rcases hsd : s.data with _ | ⟨c, t⟩
  · rw [hsd] at h
    simp at h
  rw [hsd] at h
  by_cases hc : c = '<'
  · subst hc
    simp only [List.head?_cons, Option.some.injEq, if_pos rfl, if_true, List.tail_cons] at h
    by_cases hw : (t.takeWhile wordChar).isEmpty = true
    · simp [hw] at h
    rw [if_neg hw] at h
    by_cases hr : (t.dropWhile wordChar).head? = some ':'
    · rw [if_pos hr] at h
      obtain ⟨rt, hrt⟩ : ∃ rt, t.dropWhile wordChar = ':' :: rt := by
        rcases hdw : t.dropWhile wordChar with _ | ⟨d, dt⟩
        · rw [hdw] at hr
          simp at hr
        · rw [hdw] at hr
          simp only [List.head?_cons, Option.some.injEq] at hr
          exact ⟨dt, by rw [hr]⟩
      rw [hrt] at h
      simp only [List.tail_cons] at h
      rcases hst : slashTail? rt with _ | ⟨g3, g4, p5, g6⟩
      · rw [hst] at h
        simp at h
      · rw [hst] at h
        cases h
        obtain ⟨he, h3, h4, hne5, hc5, h6⟩ := slashTail_decomp hst
        refine ⟨?_, Or.inr rfl, ?_, ?_, h3, h4, hne5, hc5, h6⟩
        · have hid : t = List.takeWhile wordChar t ++ List.dropWhile wordChar t :=
            (List.takeWhile_append_dropWhile wordChar _).symm
          rcases he with he | he
          · refine ⟨[], Or.inl rfl, ?_⟩
            rw [hrt, he] at hid
            conv_lhs => rw [hid]
            simp
          · refine ⟨['\n'], Or.inr rfl, ?_⟩
            rw [hrt, he] at hid
            conv_lhs => rw [hid]
            simp
        · simpa [List.isEmpty_iff] using hw
        · intro ch hch
          exact List.mem_takeWhile_imp hch
    · rw [if_neg hr] at h
      simp at h
  · have hhc : ¬ ((c :: t).head? = some '<') := by
      simp only [List.head?_cons, Option.some.injEq]
      exact hc
    rw [if_neg hhc, if_neg hhc] at h
    by_cases hw : ((c :: t).takeWhile wordChar).isEmpty = true
    · simp [hw] at h
    rw [if_neg hw] at h
    by_cases hr : (((c :: t)).dropWhile wordChar).head? = some ':'
    · rw [if_pos hr] at h
      obtain ⟨rt, hrt⟩ : ∃ rt, (c :: t).dropWhile wordChar = ':' :: rt := by
        rcases hdw : (c :: t).dropWhile wordChar with _ | ⟨d, dt⟩
        · rw [hdw] at hr
          simp at hr
        · rw [hdw] at hr
          simp only [List.head?_cons, Option.some.injEq] at hr
          exact ⟨dt, by rw [hr]⟩
      rw [hrt] at h
      simp only [List.tail_cons] at h
      rcases hst : slashTail? rt with _ | ⟨g3, g4, p5, g6⟩
      · rw [hst] at h
        simp at h
      · rw [hst] at h
        cases h
        obtain ⟨he, h3, h4, hne5, hc5, h6⟩ := slashTail_decomp hst
        refine ⟨?_, Or.inl rfl, ?_, ?_, h3, h4, hne5, hc5, h6⟩
        · have hid : c :: t = List.takeWhile wordChar (c :: t) ++ List.dropWhile wordChar (c :: t) :=
            (List.takeWhile_append_dropWhile wordChar _).symm
          rcases he with he | he
          · refine ⟨[], Or.inl rfl, ?_⟩
            rw [hrt, he] at hid
            conv_lhs => rw [hid]
            simp
          · refine ⟨['\n'], Or.inr rfl, ?_⟩
            rw [hrt, he] at hid
            conv_lhs => rw [hid]
            simp
        · simpa [List.isEmpty_iff] using hw
        · intro ch hch
          exact List.mem_takeWhile_imp hch
    · rw [if_neg hr] at h
      simp at h

theorem wordChar_ne {c : Char} (h : wordChar c = true) :
    c ≠ ':' ∧ c ≠ '<' ∧ c ≠ '>' ∧ c ≠ '/' ∧ c ≠ ' ' := by
  refine ⟨?_, ?_, ?_, ?_, ?_⟩ <;> (intro he; subst he; exact absurd h (by decide))

theorem pyStrip_decomp {w R : List Char} (hw : w ≠ []) (hhw : ∀ ch ∈ w, wordChar ch = true)
    (s : String) (hs : s.data = '<' :: (w ++ ':' :: R)) :
    ∃ tail, (pyStrip s).data = w ++ ':' :: tail := by
  rcases w with _ | ⟨a, wt⟩
  · exact absurd rfl hw
  have ha : wordChar a = true := hhw a (by simp)
  have h1 : s.data.dropWhile isAngle = a :: (wt ++ ':' :: R) := by
    rw [hs]
    rw [List.dropWhile_cons_of_pos (by simp [isAngle])]
    rw [List.cons_append]
    rw [List.dropWhile_cons_of_neg]
    simp [isAngle, (wordChar_ne ha).2.1, (wordChar_ne ha).2.2.1]
  obtain ⟨q, hq⟩ : ∃ q, (R.reverse ++ [':']).dropWhile isAngle = q ++ [':'] := by
    rw [List.dropWhile_append]
    split
    · exact ⟨[], by rw [List.dropWhile_cons_of_neg (by simp [isAngle])]; rfl⟩
    · exact ⟨_, rfl⟩
  have h2 : (a :: (wt ++ ':' :: R)).reverse = (R.reverse ++ [':']) ++ (a :: wt).reverse := by
    simp
  unfold pyStrip
  rw [h1, h2, List.dropWhile_append, hq]
  rw [if_neg (by simp)]
  refine ⟨q.reverse, ?_⟩
  simp
def keyBlank (k : String) : Bool :=
  match iriMatch? k with
  | some g => g.g2 = "_"
  | none => false

/-- The dollar anchor also matches before a single trailing newline, so
a key with a blank-node prefix followed by a newline is blank-shaped
too, and the resolver returns such a key unchanged through the
underscore branch of line 262. -/
theorem keyBlank_trailing_newline :
    keyBlank "_:foo\n" = true ∧
    iriMatch? "_:foo\n" = some ⟨"", "_", "", "", "foo", ""⟩ ∧
    termToIri "_:foo\n" defaultContext = .ok (.str "_:foo\n") :=
  ⟨by decide, by decide, by rfl⟩

/-- The shape of a syntactically absolute IRI claimed for properties:
it contains a colon, does not start with the two characters of a
blank-node label, and is not wrapped in angle brackets. -/
def PropOK (p : JValue) : Prop :=
  ∃ st : String, p = .str st ∧ ':' ∈ st.data ∧ st.data.take 2 ≠ ['_', ':'] ∧
    ¬ (st.data.head? = some '<' ∧ st.data.getLast? = some '>')

/-- Every binding of the context is a string that contains a colon and
starts with neither an underscore nor an angle bracket. -/
def CtxOK (c : Ctx) : Prop :=
  ∀ k v, c k = some v → ∃ st, v = .str st ∧ ':' ∈ st.data ∧
    st.data.head? ≠ some '_' ∧ st.data.head? ≠ some '<'

theorem take2_ne_blank_head {a : Char} (l : List Char) (ha : a ≠ '_') :
    (a :: l).take 2 ≠ ['_', ':'] := by
  cases l <;> simp [ha]

theorem take2_word_colon {w l : List Char} (hw : w ≠ [])
    (hword : ∀ ch ∈ w, wordChar ch = true) (hne : w ≠ ['_']) :
    (w ++ ':' :: l).take 2 ≠ ['_', ':'] := by
  rcases w with _ | ⟨a, wt⟩
  · exact absurd rfl hw
  rcases wt with _ | ⟨b, wt2⟩
  · have ha : a ≠ '_' := by
      intro hh
      exact hne (by rw [hh])
    simp [ha]
  · have hb : b ≠ ':' := (wordChar_ne (hword b (by simp))).1
    simp [hb]

theorem not_mem_of_contains_false {l : List Char} {c : Char}
    (h : l.contains c = false) : c ∉ l := by
  simpa using h

theorem strOK_propOK {sv : String} (g5 : String) (hcol : ':' ∈ sv.data)
    (h1 : sv.data.head? ≠ some '_') (h2 : sv.data.head? ≠ some '<') :
    PropOK (.str (sv ++ g5)) := by
  rcases hd : sv.data with _ | ⟨a, rest⟩
  · rw [hd] at hcol
    cases hcol
  have ha1 : a ≠ '_' := by
    intro hh
    exact h1 (by rw [hd, hh]; rfl)
  have ha2 : a ≠ '<' := by
    intro hh
    exact h2 (by rw [hd, hh]; rfl)
  refine ⟨sv ++ g5, rfl, ?_, ?_, ?_⟩
  · rw [String.data_append]
    exact List.mem_append_left _ hcol
  · rw [String.data_append, hd, List.cons_append]
    exact take2_ne_blank_head _ ha1
  · rw [String.data_append, hd]
    intro hpair
    have hh := hpair.1
    simp only [List.cons_append, List.head?_cons, Option.some.injEq] at hh
    exact ha2 hh

theorem strOK_propOK0 {sv : String} (hcol : ':' ∈ sv.data)
    (h1 : sv.data.head? ≠ some '_') (h2 : sv.data.head? ≠ some '<') :
    PropOK (.str sv) := by
  rcases hd : sv.data with _ | ⟨a, rest⟩
  · rw [hd] at hcol
    cases hcol
  have ha1 : a ≠ '_' := by
    intro hh
    exact h1 (by rw [hd, hh]; rfl)
  have ha2 : a ≠ '<' := by
    intro hh
    exact h2 (by rw [hd, hh]; rfl)
  refine ⟨sv, rfl, hcol, ?_, ?_⟩
  · rw [hd]
    exact take2_ne_blank_head _ ha1
  · rw [hd]
    intro hpair
    have hh := hpair.1
    simp only [List.head?_cons, Option.some.injEq] at hh
    exact ha2 hh
theorem termToIri_propOK {k : String} {c : Ctx} {v : JValue}
    (hc : CtxOK c) (hkb : keyBlank k = false) (h : termToIri k c = .ok v) : PropOK v := by
  unfold termToIri at h
  match hm : iriMatch? k with
  | none =>
      simp only [hm] at h
      match hck : c k with
      | some w0 =>
          simp only [hck] at h
          cases h
          obtain ⟨st, rfl, hcol, hh1, hh2⟩ := hc k _ hck
          exact strOK_propOK0 hcol hh1 hh2
      | none =>
          simp only [hck] at h
          match hvv : c "__vocab__" with
          | some (.str v0) =>
              simp only [hvv] at h
              cases h
              obtain ⟨st, hst, hcol, hh1, hh2⟩ := hc _ _ hvv
              cases hst
              exact strOK_propOK k hcol hh1 hh2
          | some .null => simp only [hvv] at h; cases h
          | some (.bool b) => simp only [hvv] at h; cases h
          | some (.int n) => simp only [hvv] at h; cases h
          | some (.float nz lex) => simp only [hvv] at h; cases h
          | some (.arr xs) => simp only [hvv] at h; cases h
          | some (.obj kvs) => simp only [hvv] at h; cases h
          | none => simp only [hvv] at h; cases h
  | some g =>
      simp only [hm] at h
      obtain ⟨⟨nl, hnlc, hdec⟩, hg1, hg2ne, hg2w, hg3, hg4, hg5ne, hg5c, hg6⟩ :=
        iriMatch_decomp hm
      have hg2blank : ¬ g.g2 = "_" := by
        simp [keyBlank, hm] at hkb
        exact hkb
      have hg2dne : g.g2.data ≠ ['_'] := by
        intro hd
        exact hg2blank (String.ext (by rw [hd]))
      by_cases hbr1 : (g.g1 = "<" ∧ g.g6 = ">")
      · have hcond : (g.g1 = "<" && g.g6 = ">") = true := by
          rw [hbr1.1, hbr1.2]; decide
        rw [if_pos hcond] at h
        cases h
        have hs : k.data = '<' :: (g.g2.data ++ ':' ::
            (g.g3.data ++ g.g4.data ++ g.g5.data ++ (['>'] ++ nl))) := by
          rw [hdec, hbr1.1, hbr1.2]
          simp
        obtain ⟨tail, hps⟩ := pyStrip_decomp hg2ne hg2w k hs
        refine ⟨pyStrip k, rfl, ?_, ?_, ?_⟩
        · rw [hps]
          exact List.mem_append_right _ (by simp)
        · rw [hps]
          exact take2_word_colon hg2ne hg2w hg2dne
        · rw [hps]
          intro hpair
          have hh := hpair.1
          rcases hw : g.g2.data with _ | ⟨a, wt⟩
          · exact hg2ne hw
          rw [hw] at hh
          simp only [List.cons_append, List.head?_cons, Option.some.injEq] at hh
          exact (wordChar_ne (hg2w a (by rw [hw]; simp))).2.1 hh
      · rw [if_neg (by
          intro hcc
          rcases Bool.and_eq_true_iff.mp hcc with ⟨h1, h2⟩
          exact hbr1 ⟨of_decide_eq_true h1, of_decide_eq_true h2⟩)] at h
        by_cases hg3' : g.g3 = "/"
        · rw [if_pos hg3'] at h
          cases h
          refine ⟨k, rfl, ?_, ?_, ?_⟩
          · rw [hdec]
            exact List.mem_append_right _ (by simp)
          · rcases hg1 with h1 | h1
            · rw [hdec, h1]
              rw [show ("" : String).data = [] from rfl, List.nil_append]
              exact take2_word_colon hg2ne hg2w hg2dne
            · rw [hdec, h1]
              rw [show ("<" : String).data = ['<'] from rfl]
              simp only [List.cons_append, List.nil_append]
              exact take2_ne_blank_head _ (by decide)
          · intro hpair
            rcases hg1 with h1 | h1
            · have hh := hpair.1
              rw [hdec, h1] at hh
              rw [show ("" : String).data = [] from rfl, List.nil_append] at hh
              rcases hw : g.g2.data with _ | ⟨a, wt⟩
              · exact hg2ne hw
              rw [hw] at hh
              simp only [List.cons_append, List.head?_cons, Option.some.injEq] at hh
              exact (wordChar_ne (hg2w a (by rw [hw]; simp))).2.1 hh
            · have hg6' : g.g6 = "" := by
                rcases hg6 with h6 | h6
                · exact h6
                · exact absurd ⟨h1, h6⟩ hbr1
              rcases hnlc with hnl0 | hnl0
              · subst hnl0
                have hlast : k.data.getLast? = g.g5.data.getLast? := by
                  rw [hdec, hg6']
                  simp only [show ("" : String).data = [] from rfl, List.append_nil]
                  rw [show (':' :: (g.g3.data ++ g.g4.data ++ g.g5.data)) =
                    (':' :: (g.g3.data ++ g.g4.data)) ++ g.g5.data from by simp]
                  rw [← List.append_assoc]
                  exact List.getLast?_append_of_ne_nil _ hg5ne
                have hh := hpair.2
                rw [hlast] at hh
                have hmem : '>' ∈ g.g5.data := List.mem_of_mem_getLast? hh
                exact not_mem_of_contains_false hg5c hmem
              · subst hnl0
                have hlast : k.data.getLast? = some '\n' := by
                  rw [hdec]
                  rw [show (g.g1.data ++ g.g2.data ++ ':' ::
                    (g.g3.data ++ g.g4.data ++ g.g5.data ++ g.g6.data ++ ['\n'])) =
                    (g.g1.data ++ g.g2.data ++ ':' ::
                      (g.g3.data ++ g.g4.data ++ g.g5.data ++ g.g6.data)) ++ ['\n']
                    from by simp]
                  exact List.getLast?_concat _
                have hh := hpair.2
                rw [hlast] at hh
                exact absurd (Option.some.inj hh) (by decide)
        · rw [if_neg hg3'] at h
          match hck : c g.g2 with
          | some (.str sv) =>
              simp only [hck] at h
              cases h
              obtain ⟨st, hst, hcol, hh1, hh2⟩ := hc _ _ hck
              cases hst
              exact strOK_propOK g.g5 hcol hh1 hh2
          | some .null => simp only [hck] at h; cases h
          | some (.bool b) => simp only [hck] at h; cases h
          | some (.int n) => simp only [hck] at h; cases h
          | some (.float nz lex) => simp only [hck] at h; cases h
          | some (.arr xs) => simp only [hck] at h; cases h
          | some (.obj kvs) => simp only [hck] at h; cases h
          | none =>
              simp only [hck] at h
              rw [if_neg (by simpa using hg2blank)] at h
              cases h
/-- A context value usable for term expansion: a string that contains a
colon and starts with neither an underscore nor an opening angle
bracket. -/
def strOKb : JValue → Bool
  | .str s => s.data.contains ':' && s.data.head? ≠ some '_' && s.data.head? ≠ some '<'
  | _ => false

/-- All values of a JSON object that is used as a context are usable
context values. -/
def ctxObjOK (l : List (String × JValue)) : Bool := l.all (fun kv => strOKb kv.2)

/-- The condition wfJ places on the value of a reserved "#" member. -/
def ctxValOK : JValue → Bool
  | .obj l => ctxObjOK l
  | _ => true

mutual

/-- Well-formedness of a JSON value for the property-IRI invariant:
every object key other than the reserved ones is not blank-node shaped,
and every local context binds only usable context values. -/
def wfJ : JValue → Bool
  | .obj kvs => wfMs kvs
  | .arr xs => wfL xs
  | _ => true

def wfMs : List (String × JValue) → Bool
  | [] => true
  | (k, v) :: rest =>
      (if k = "#" then ctxValOK v
       else (k = "@" || k = "a" || !keyBlank k)) && wfJ v && wfMs rest

def wfL : List JValue → Bool
  | [] => true
  | x :: rest => wfJ x && wfL rest

end

theorem pyLookup_mem {l : List (String × JValue)} {key : String} {v : JValue}
    (h : pyLookup l key = some v) : (key, v) ∈ l := by
  induction l with
  | nil => cases h
  | cons kv rest ih =>
      obtain ⟨k, w⟩ := kv
      simp only [pyLookup] at h
      split at h
      · cases h
        subst k
        exact List.mem_cons_self _ _
      · exact List.mem_cons_of_mem _ (ih h)

theorem strOKb_spec {v : JValue} (h : strOKb v = true) :
    ∃ st, v = .str st ∧ ':' ∈ st.data ∧ st.data.head? ≠ some '_' ∧
      st.data.head? ≠ some '<' := by
  match v with
  | .str s =>
      simp only [strOKb, Bool.and_eq_true, decide_eq_true_eq] at h
      exact ⟨s, rfl, by simpa using h.1.1, h.1.2, h.2⟩
  | .null | .bool _ | .int _ | .float _ _ | .arr _ | .obj _ => cases h

theorem ctxOfObj_ok {l : List (String × JValue)} (h : ctxObjOK l = true) :
    CtxOK (ctxOfObj l) := by
  intro k v hk
  have hm := pyLookup_mem hk
  have := List.all_eq_true.mp h _ hm
  exact strOKb_spec this

theorem merge_ctxOK {l : List (String × JValue)} {c : Ctx}
    (hl : ctxObjOK l = true) (hc : CtxOK c) :
    CtxOK (mergeContexts (ctxOfObj l) c) := by
  intro k v hk
  unfold mergeContexts at hk
  match hm : ctxOfObj l k with
  | some w =>
      rw [hm] at hk
      cases hk
      exact ctxOfObj_ok hl k _ hm
  | none =>
      rw [hm] at hk
      exact hc k v hk

theorem wfMs_mem {kvs : List (String × JValue)} {k : String} {v : JValue}
    (h : wfMs kvs = true) (hm : (k, v) ∈ kvs) : wfJ v = true := by
  induction kvs with
  | nil => cases hm
  | cons kv rest ih =>
      obtain ⟨k0, v0⟩ := kv
      rw [wfMs] at h
      simp only [Bool.and_eq_true] at h
      rcases List.mem_cons.mp hm with he | ht
      · cases he
        exact h.1.2
      · exact ih h.2 ht

theorem wfMs_key {kvs : List (String × JValue)} {k : String} {v : JValue}
    (h : wfMs kvs = true) (hm : (k, v) ∈ kvs) (h1 : ¬ k = "#") (h2 : ¬ k = "@")
    (h3 : ¬ k = "a") : keyBlank k = false := by
  induction kvs with
  | nil => cases hm
  | cons kv rest ih =>
      obtain ⟨k0, v0⟩ := kv
      rw [wfMs] at h
      simp only [Bool.and_eq_true] at h
      rcases List.mem_cons.mp hm with he | ht
      · have hcnd := h.1.1
        cases he
        rw [if_neg h1] at hcnd
        rcases Bool.or_eq_true_iff.mp hcnd with hh | hh
        · rcases Bool.or_eq_true_iff.mp hh with hh2 | hh2
          · exact absurd (of_decide_eq_true hh2) h2
          · exact absurd (of_decide_eq_true hh2) h3
        · cases hb : keyBlank k
          · rfl
          · rw [hb] at hh
            exact absurd hh (by decide)
      · exact ih h.2 ht

theorem wfMs_ctx {kvs : List (String × JValue)} {l : List (String × JValue)}
    (h : wfMs kvs = true) (hm : pyLookup kvs "#" = some (.obj l)) :
    ctxObjOK l = true := by
  induction kvs with
  | nil => cases hm
  | cons kv rest ih =>
      obtain ⟨k0, v0⟩ := kv
      rw [wfMs] at h
      simp only [Bool.and_eq_true] at h
      simp only [pyLookup] at hm
      split at hm
      · cases hm
        have hcnd := h.1.1
        subst k0
        rw [if_pos rfl] at hcnd
        exact hcnd
      · exact ih h.2 hm

theorem wfMs_tail {kv : String × JValue} {rest : List (String × JValue)}
    (h : wfMs (kv :: rest) = true) : wfMs rest = true := by
  obtain ⟨k, v⟩ := kv
  rw [wfMs] at h
  simp only [Bool.and_eq_true] at h
  exact h.2

theorem wfL_mem {xs : List JValue} {x : JValue} (h : wfL xs = true)
    (hm : x ∈ xs) : wfJ x = true := by
  induction xs with
  | nil => cases hm
  | cons y rest ih =>
      rw [wfL] at h
      simp only [Bool.and_eq_true] at h
      rcases List.mem_cons.mp hm with he | ht
      · rw [he]
        exact h.1
      · exact ih h.2 ht

/-- PropOK holds of the rdf:type property constant. -/
theorem rdfType_propOK : PropOK (.str rdfType) :=
  ⟨rdfType, rfl, by decide, by decide, by decide⟩
theorem runOne_badCtx (kvs : List (String × JValue)) (c : Ctx) (g : Nat) (v : JValue)
    (h : pyLookup kvs "#" = some v) (hv : ∀ l, v = JValue.obj l → False) :
    run (.one (.obj kvs)) c g =
      ⟨[], some "AttributeError: object has no attribute keys", .obj kvs, g⟩ := by
  match v with
  | .obj l => exact absurd rfl (hv l)
  | .null | .bool _ | .int _ | .float _ _ | .str _ | .arr _ =>
      rw [run.eq_def]
      simp only [h]

theorem runObjBody_atObj_err (kvs skvs : List (String × JValue)) (c : Ctx) (g : Nat)
    (e0 : String) (h : pyLookup kvs "@" = some (.obj skvs))
    (hr : (run (.one (.obj skvs)) c g).err = some e0) :
    run (.objBody kvs) c g =
      ⟨(run (.one (.obj skvs)) c g).ts, some e0,
        .obj (setKey kvs "@" (run (.one (.obj skvs)) c g).upd),
        (run (.one (.obj skvs)) c g).gen⟩ := by
  rw [run.eq_def]
  simp only []
  split <;> simp_all

theorem runObjBody_atObj_some (kvs skvs : List (String × JValue)) (c : Ctx) (g : Nat)
    (sv : JValue) (h : pyLookup kvs "@" = some (.obj skvs))
    (hr : (run (.one (.obj skvs)) c g).err = none)
    (hu : pyLookup (asObj (run (.one (.obj skvs)) c g).upd) "@" = some sv) :
    run (.objBody kvs) c g =
      ⟨(run (.one (.obj skvs)) c g).ts ++
          (run (.members sv kvs) c (run (.one (.obj skvs)) c g).gen).ts,
        (run (.members sv kvs) c (run (.one (.obj skvs)) c g).gen).err,
        .obj (setKey (asObj (run (.members sv kvs) c (run (.one (.obj skvs)) c g).gen).upd)
          "@" (run (.one (.obj skvs)) c g).upd),
        (run (.members sv kvs) c (run (.one (.obj skvs)) c g).gen).gen⟩ := by
  rw [run.eq_def]
  simp only []
  split <;> simp_all

theorem runObjBody_atObj_none (kvs skvs : List (String × JValue)) (c : Ctx) (g : Nat)
    (h : pyLookup kvs "@" = some (.obj skvs))
    (hr : (run (.one (.obj skvs)) c g).err = none)
    (hu : pyLookup (asObj (run (.one (.obj skvs)) c g).upd) "@" = none) :
    run (.objBody kvs) c g =
      ⟨(run (.one (.obj skvs)) c g).ts, some "KeyError: @",
        .obj (setKey kvs "@" (run (.one (.obj skvs)) c g).upd),
        (run (.one (.obj skvs)) c g).gen⟩ := by
  rw [run.eq_def]
  simp only []
  split <;> simp_all

theorem runObjBody_atArr_err (kvs : List (String × JValue)) (xs : List JValue) (c : Ctx)
    (g : Nat) (e0 : String) (h : pyLookup kvs "@" = some (.arr xs))
    (hr : (run (.one (.arr xs)) c g).err = some e0) :
    run (.objBody kvs) c g =
      ⟨(run (.one (.arr xs)) c g).ts, some e0,
        .obj (setKey kvs "@" (run (.one (.arr xs)) c g).upd),
        (run (.one (.arr xs)) c g).gen⟩ := by
  rw [run.eq_def]
  simp only []
  split <;> simp_all

theorem runObjBody_atArr_ok (kvs : List (String × JValue)) (xs : List JValue) (c : Ctx)
    (g : Nat) (h : pyLookup kvs "@" = some (.arr xs))
    (hr : (run (.one (.arr xs)) c g).err = none) :
    run (.objBody kvs) c g =
      ⟨(run (.one (.arr xs)) c g).ts ++
          (run (.members (.str (genBNode (run (.one (.arr xs)) c g).gen)) kvs) c
            ((run (.one (.arr xs)) c g).gen + 1)).ts,
        (run (.members (.str (genBNode (run (.one (.arr xs)) c g).gen)) kvs) c
          ((run (.one (.arr xs)) c g).gen + 1)).err,
        .obj (setKey (asObj (run (.members (.str (genBNode (run (.one (.arr xs)) c g).gen))
          kvs) c ((run (.one (.arr xs)) c g).gen + 1)).upd) "@"
          (run (.one (.arr xs)) c g).upd),
        (run (.members (.str (genBNode (run (.one (.arr xs)) c g).gen)) kvs) c
          ((run (.one (.arr xs)) c g).gen + 1)).gen⟩ := by
  rw [run.eq_def]
  simp only []
  split <;> simp_all

theorem runObjBody_emptyStr (kvs : List (String × JValue)) (c : Ctx) (g : Nat)
    (h : pyLookup kvs "@" = some (.str "")) :
    run (.objBody kvs) c g = run (.members (.str "") kvs) c g := by
  rw [run.eq_def]
  simp only []
  split <;> simp_all

theorem runObjBody_badSubj (kvs : List (String × JValue)) (c : Ctx) (g : Nat) (sv : JValue)
    (h : pyLookup kvs "@" = some sv)
    (hv1 : ∀ l, sv = JValue.obj l → False) (hv2 : ∀ xs, sv = JValue.arr xs → False)
    (hv3 : ∀ s0, sv = JValue.str s0 → False) (ht : pyTruthy sv = true) :
    run (.objBody kvs) c g =
      ⟨[], some "TypeError: expected string or buffer", .obj kvs, g⟩ := by
  match sv with
  | .obj l => exact absurd rfl (hv1 l)
  | .arr xs => exact absurd rfl (hv2 xs)
  | .str s0 => exact absurd rfl (hv3 s0)
  | .null | .bool _ | .int _ | .float _ _ =>
      rw [run.eq_def]
      simp only []
      split <;> simp_all

theorem runObjBody_falsy (kvs : List (String × JValue)) (c : Ctx) (g : Nat) (sv : JValue)
    (h : pyLookup kvs "@" = some sv)
    (hv1 : ∀ l, sv = JValue.obj l → False) (hv2 : ∀ xs, sv = JValue.arr xs → False)
    (hv3 : ∀ s0, sv = JValue.str s0 → False) (ht : ¬ pyTruthy sv = true) :
    run (.objBody kvs) c g = run (.members sv kvs) c g := by
  match sv with
  | .obj l => exact absurd rfl (hv1 l)
  | .arr xs => exact absurd rfl (hv2 xs)
  | .str s0 => exact absurd rfl (hv3 s0)
  | .null | .bool _ | .int _ | .float _ _ =>
      rw [run.eq_def]
      simp only []
      split <;> simp_all

theorem runValue_obj_err (s p : JValue) (okvs : List (String × JValue)) (c : Ctx) (g : Nat)
    (e0 : String) (hr : (run (.one (.obj okvs)) c g).err = some e0) :
    run (.value s p (.obj okvs)) c g =
      ⟨(run (.one (.obj okvs)) c g).ts, some e0, (run (.one (.obj okvs)) c g).upd,
        (run (.one (.obj okvs)) c g).gen⟩ := by
  rw [run.eq_def]
  simp only [hr]

theorem runValue_obj_procErr (s p : JValue) (okvs : List (String × JValue)) (c : Ctx)
    (g : Nat) (av : JValue) (e0 : String)
    (hr : (run (.one (.obj okvs)) c g).err = none)
    (ha : pyLookup (asObj (run (.one (.obj okvs)) c g).upd) "@" = some av)
    (hp : processObject av c = .error e0) :
    run (.value s p (.obj okvs)) c g =
      ⟨(run (.one (.obj okvs)) c g).ts, some e0, (run (.one (.obj okvs)) c g).upd,
        (run (.one (.obj okvs)) c g).gen⟩ := by
  rw [run.eq_def]
  simp only [hr, ha, hp]

theorem runValue_obj_noAt (s p : JValue) (okvs : List (String × JValue)) (c : Ctx) (g : Nat)
    (hr : (run (.one (.obj okvs)) c g).err = none)
    (ha : pyLookup (asObj (run (.one (.obj okvs)) c g).upd) "@" = none) :
    run (.value s p (.obj okvs)) c g =
      ⟨(run (.one (.obj okvs)) c g).ts, some "KeyError: @", (run (.one (.obj okvs)) c g).upd,
        (run (.one (.obj okvs)) c g).gen⟩ := by
  rw [run.eq_def]
  simp only [hr, ha]

theorem runValue_scalar_ok (s p v : JValue) (c : Ctx) (g : Nat) (o : JValue)
    (hv1 : ∀ kvs, v = JValue.obj kvs → False) (hv2 : ∀ xs, v = JValue.arr xs → False)
    (ht : pyTruthy v = true) (hp : processObject v c = .ok o) :
    run (.value s p v) c g = ⟨[⟨s, p, o⟩], none, v, g⟩ := by
  match v with
  | .obj kvs => exact absurd rfl (hv1 kvs)
  | .arr xs => exact absurd rfl (hv2 xs)
  | .null | .bool _ | .int _ | .float _ _ | .str _ =>
      rw [run.eq_def]
      simp only [ht, hp]
      simp

theorem runValue_scalar_err (s p v : JValue) (c : Ctx) (g : Nat) (e0 : String)
    (hv1 : ∀ kvs, v = JValue.obj kvs → False) (hv2 : ∀ xs, v = JValue.arr xs → False)
    (ht : pyTruthy v = true) (hp : processObject v c = .error e0) :
    run (.value s p v) c g = ⟨[], some e0, v, g⟩ := by
  match v with
  | .obj kvs => exact absurd rfl (hv1 kvs)
  | .arr xs => exact absurd rfl (hv2 xs)
  | .null | .bool _ | .int _ | .float _ _ | .str _ =>
      rw [run.eq_def]
      simp only [ht, hp]
      simp

theorem runValue_falsy (s p v : JValue) (c : Ctx) (g : Nat)
    (hv1 : ∀ kvs, v = JValue.obj kvs → False) (hv2 : ∀ xs, v = JValue.arr xs → False)
    (ht : ¬ pyTruthy v = true) :
    run (.value s p v) c g = ⟨[], none, v, g⟩ := by
  match v with
  | .obj kvs => exact absurd rfl (hv1 kvs)
  | .arr xs => exact absurd rfl (hv2 xs)
  | .null | .bool _ | .int _ | .float _ _ | .str _ =>
      rw [run.eq_def]
      have ht' : pyTruthy _ = false := Bool.not_eq_true _ ▸ ht
      simp only [ht']
      rw [if_neg (by simp)]

theorem runElems_nil (s p : JValue) (c : Ctx) (g : Nat) :
    run (.elems s p []) c g = ⟨[], none, .arr [], g⟩ := by
  rw [run.eq_def]

theorem runElems_obj_err (s p : JValue) (okvs : List (String × JValue))
    (rest : List JValue) (c : Ctx) (g : Nat) (e0 : String)
    (hr : (run (.one (.obj okvs)) c g).err = some e0) :
    run (.elems s p (.obj okvs :: rest)) c g =
      ⟨(run (.one (.obj okvs)) c g).ts, some e0,
        .arr ((run (.one (.obj okvs)) c g).upd :: rest),
        (run (.one (.obj okvs)) c g).gen⟩ := by
  rw [run.eq_def]
  simp only [hr]

theorem runElems_obj_ok (s p : JValue) (okvs : List (String × JValue))
    (rest : List JValue) (c : Ctx) (g : Nat) (av o : JValue)
    (hr : (run (.one (.obj okvs)) c g).err = none)
    (ha : pyLookup (asObj (run (.one (.obj okvs)) c g).upd) "@" = some av)
    (hp : processObject av c = .ok o) :
    run (.elems s p (.obj okvs :: rest)) c g =
      ⟨((run (.one (.obj okvs)) c g).ts ++ [⟨s, p, o⟩]) ++
          (run (.elems s p rest) c (run (.one (.obj okvs)) c g).gen).ts,
        (run (.elems s p rest) c (run (.one (.obj okvs)) c g).gen).err,
        .arr ((run (.one (.obj okvs)) c g).upd ::
          asArr (run (.elems s p rest) c (run (.one (.obj okvs)) c g).gen).upd),
        (run (.elems s p rest) c (run (.one (.obj okvs)) c g).gen).gen⟩ := by
  rw [run.eq_def]
  simp only [hr, ha, hp]

theorem runElems_obj_procErr (s p : JValue) (okvs : List (String × JValue))
    (rest : List JValue) (c : Ctx) (g : Nat) (av : JValue) (e0 : String)
    (hr : (run (.one (.obj okvs)) c g).err = none)
    (ha : pyLookup (asObj (run (.one (.obj okvs)) c g).upd) "@" = some av)
    (hp : processObject av c = .error e0) :
    run (.elems s p (.obj okvs :: rest)) c g =
      ⟨(run (.one (.obj okvs)) c g).ts, some e0,
        .arr ((run (.one (.obj okvs)) c g).upd :: rest),
        (run (.one (.obj okvs)) c g).gen⟩ := by
  rw [run.eq_def]
  simp only [hr, ha, hp]

theorem runElems_obj_noAt (s p : JValue) (okvs : List (String × JValue))
    (rest : List JValue) (c : Ctx) (g : Nat)
    (hr : (run (.one (.obj okvs)) c g).err = none)
    (ha : pyLookup (asObj (run (.one (.obj okvs)) c g).upd) "@" = none) :
    run (.elems s p (.obj okvs :: rest)) c g =
      ⟨(run (.one (.obj okvs)) c g).ts, some "KeyError: @",
        .arr ((run (.one (.obj okvs)) c g).upd :: rest),
        (run (.one (.obj okvs)) c g).gen⟩ := by
  rw [run.eq_def]
  simp only [hr, ha]

theorem runElems_arr_err (s p : JValue) (ys rest : List JValue) (c : Ctx) (g : Nat)
    (e0 : String) (hr : (run (.one (.arr ys)) c g).err = some e0) :
    run (.elems s p (.arr ys :: rest)) c g =
      ⟨(run (.one (.arr ys)) c g).ts, some e0,
        .arr ((run (.one (.arr ys)) c g).upd :: rest),
        (run (.one (.arr ys)) c g).gen⟩ := by
  rw [run.eq_def]
  simp only [hr]

theorem runElems_arr_ok (s p : JValue) (ys rest : List JValue) (c : Ctx) (g : Nat)
    (hr : (run (.one (.arr ys)) c g).err = none) :
    run (.elems s p (.arr ys :: rest)) c g =
      ⟨(run (.one (.arr ys)) c g).ts ++
          (run (.elems s p rest) c (run (.one (.arr ys)) c g).gen).ts,
        (run (.elems s p rest) c (run (.one (.arr ys)) c g).gen).err,
        .arr ((run (.one (.arr ys)) c g).upd ::
          asArr (run (.elems s p rest) c (run (.one (.arr ys)) c g).gen).upd),
        (run (.elems s p rest) c (run (.one (.arr ys)) c g).gen).gen⟩ := by
  rw [run.eq_def]
  simp only [hr]

theorem runElems_scalar_ok (s p v : JValue) (rest : List JValue) (c : Ctx) (g : Nat)
    (o : JValue)
    (hv1 : ∀ kvs, v = JValue.obj kvs → False) (hv2 : ∀ xs, v = JValue.arr xs → False)
    (ht : pyTruthy v = true) (hp : processObject v c = .ok o) :
    run (.elems s p (v :: rest)) c g =
      ⟨⟨s, p, o⟩ :: (run (.elems s p rest) c g).ts,
        (run (.elems s p rest) c g).err,
        .arr (v :: asArr (run (.elems s p rest) c g).upd),
        (run (.elems s p rest) c g).gen⟩ := by
  match v with
  | .obj kvs => exact absurd rfl (hv1 kvs)
  | .arr xs => exact absurd rfl (hv2 xs)
  | .null | .bool _ | .int _ | .float _ _ | .str _ =>
      rw [run.eq_def]
      simp only [ht, hp]
      simp

theorem runElems_scalar_err (s p v : JValue) (rest : List JValue) (c : Ctx) (g : Nat)
    (e0 : String)
    (hv1 : ∀ kvs, v = JValue.obj kvs → False) (hv2 : ∀ xs, v = JValue.arr xs → False)
    (ht : pyTruthy v = true) (hp : processObject v c = .error e0) :
    run (.elems s p (v :: rest)) c g = ⟨[], some e0, .arr (v :: rest), g⟩ := by
  match v with
  | .obj kvs => exact absurd rfl (hv1 kvs)
  | .arr xs => exact absurd rfl (hv2 xs)
  | .null | .bool _ | .int _ | .float _ _ | .str _ =>
      rw [run.eq_def]
      simp only [ht, hp]
      simp

theorem runElems_falsy (s p v : JValue) (rest : List JValue) (c : Ctx) (g : Nat)
    (hv1 : ∀ kvs, v = JValue.obj kvs → False) (hv2 : ∀ xs, v = JValue.arr xs → False)
    (ht : ¬ pyTruthy v = true) :
    run (.elems s p (v :: rest)) c g =
      ⟨(run (.elems s p rest) c g).ts, (run (.elems s p rest) c g).err,
        .arr (v :: asArr (run (.elems s p rest) c g).upd),
        (run (.elems s p rest) c g).gen⟩ := by
  match v with
  | .obj kvs => exact absurd rfl (hv1 kvs)
  | .arr xs => exact absurd rfl (hv2 xs)
  | .null | .bool _ | .int _ | .float _ _ | .str _ =>
      rw [run.eq_def]
      have ht' : pyTruthy _ = false := Bool.not_eq_true _ ▸ ht
      simp only [ht']
      rw [if_neg (by simp)]
theorem wfJ_obj {kvs : List (String × JValue)} (h : wfJ (.obj kvs) = true) :
    wfMs kvs = true := by
  rw [wfJ] at h
  exact h

theorem wfJ_arr {xs : List JValue} (h : wfJ (.arr xs) = true) : wfL xs = true := by
  rw [wfJ] at h
  exact h

theorem wfL_head {x : JValue} {rest : List JValue} (h : wfL (x :: rest) = true) :
    wfJ x = true := by
  rw [wfL] at h
  exact (Bool.and_eq_true_iff.mp h).1

theorem wfL_tail {x : JValue} {rest : List JValue} (h : wfL (x :: rest) = true) :
    wfL rest = true := by
  rw [wfL] at h
  exact (Bool.and_eq_true_iff.mp h).2

/-- The well-formedness a walk state needs for the property invariant:
documents are wfJ, member lists are wfMs, and a property already chosen
satisfies PropOK. -/
def taskWF : WTask → Prop
  | .one v => wfJ v = true
  | .seq es => wfL es = true
  | .objBody kvs => wfMs kvs = true
  | .members _ kvs => wfMs kvs = true
  | .value _ p v => PropOK p ∧ wfJ v = true
  | .elems _ p es => PropOK p ∧ wfL es = true

/-- The property-IRI invariant of the walker: under a context whose
bindings are all usable and a well-formed walk state, every triple the
walk yields has a PropOK property. -/
theorem run_propOK (t : WTask) (c : Ctx) (g : Nat) :
    CtxOK c → taskWF t → ∀ tr ∈ (run t c g).ts, PropOK tr.prop := by
  induction t, c, g using run.induct with
  | case1 c g kvs lkvs hk ih =>
      intro hc hwf tr htr
      rw [runOne_ctx kvs lkvs c g hk] at htr
      exact ih (merge_ctxOK (wfMs_ctx (wfJ_obj hwf) hk) hc) (wfJ_obj hwf) tr htr
  | case2 c g kvs v hnv hk =>
      intro hc hwf tr htr
      rw [runOne_badCtx kvs c g v hk hnv] at htr
      simp at htr
  | case3 c g kvs hk ih =>
      intro hc hwf tr htr
      rw [runOne_noCtx kvs c g hk] at htr
      exact ih hc (wfJ_obj hwf) tr htr
  | case4 c g xs ih =>
      intro hc hwf tr htr
      rw [runOne_arr] at htr
      exact ih hc (wfJ_arr hwf) tr htr
  | case5 c g v hno hna =>
      intro hc hwf tr htr
      match v, hno, hna with
      | .null, _, _ => rw [runOne_null] at htr; simp at htr
      | .bool b, _, _ => rw [runOne_bool] at htr; simp at htr
      | .int n, _, _ => rw [runOne_int] at htr; simp at htr
      | .float nz lex, _, _ => rw [runOne_float] at htr; simp at htr
      | .str st, _, _ => rw [runOne_str] at htr; simp at htr
      | .obj l, hno, _ => exact absurd rfl (hno l)
      | .arr xs, _, hna => exact absurd rfl (hna xs)
  | case6 c g =>
      intro hc hwf tr htr
      rw [runSeq_nil] at htr
      simp at htr
  | case7 c g e rest r e0 hr ih =>
      intro hc hwf tr htr
      rw [runSeq_cons_err e rest c g e0 hr] at htr
      exact ih hc (wfL_head hwf) tr htr
  | case8 c g e rest r hr ih2 ih1 =>
      intro hc hwf tr htr
      rw [runSeq_cons_ok e rest c g hr] at htr
      rcases List.mem_append.mp htr with h1 | h1
      · exact ih2 hc (wfL_head hwf) tr h1
      · exact ih1 hc (wfL_tail hwf) tr h1
  | case9 kvs c g skvs hat r e0 hr ih =>
      intro hc hwf tr htr
      rw [runObjBody_atObj_err kvs skvs c g e0 hat hr] at htr
      exact ih hc (wfMs_mem hwf (pyLookup_mem hat)) tr htr
  | case10 kvs c g skvs hat r hr sv hu ih2 ih1 =>
      intro hc hwf tr htr
      rw [runObjBody_atObj_some kvs skvs c g sv hat hr hu] at htr
      rcases List.mem_append.mp htr with h1 | h1
      · exact ih2 hc (wfMs_mem hwf (pyLookup_mem hat)) tr h1
      · exact ih1 hc hwf tr h1
  | case11 kvs c g skvs hat r hr hu ih =>
      intro hc hwf tr htr
      rw [runObjBody_atObj_none kvs skvs c g hat hr hu] at htr
      exact ih hc (wfMs_mem hwf (pyLookup_mem hat)) tr htr
  | case12 kvs c g xs hat r e0 hr ih =>
      intro hc hwf tr htr
      rw [runObjBody_atArr_err kvs xs c g e0 hat hr] at htr
      exact ih hc (wfMs_mem hwf (pyLookup_mem hat)) tr htr
  | case13 kvs c g xs hat r hr ih2 ih1 =>
      intro hc hwf tr htr
      rw [runObjBody_atArr_ok kvs xs c g hat hr] at htr
      rcases List.mem_append.mp htr with h1 | h1
      · exact ih2 hc (wfMs_mem hwf (pyLookup_mem hat)) tr h1
      · exact ih1 hc hwf tr h1
  | case14 kvs c g hat ih =>
      intro hc hwf tr htr
      rw [runObjBody_emptyStr kvs c g hat] at htr
      exact ih hc hwf tr htr
  | case15 kvs c g s0 hat hne sv hok ih =>
      intro hc hwf tr htr
      rw [runObjBody_str kvs c g s0 sv hat hne hok] at htr
      exact ih hc hwf tr htr
  | case16 kvs c g s0 hat hne e0 herr =>
      intro hc hwf tr htr
      rw [runObjBody_strErr kvs c g s0 e0 hat hne herr] at htr
      simp at htr
  | case17 kvs c g sv hv1 hv2 hv3 hat ht =>
      intro hc hwf tr htr
      rw [runObjBody_badSubj kvs c g sv hat hv1 hv2 hv3 ht] at htr
      simp at htr
  | case18 kvs c g sv hv1 hv2 hv3 hat ht ih =>
      intro hc hwf tr htr
      rw [runObjBody_falsy kvs c g sv hat hv1 hv2 hv3 ht] at htr
      exact ih hc hwf tr htr
  | case19 kvs c g hat ih =>
      intro hc hwf tr htr
      rw [runObjBody_noSubj kvs c g hat] at htr
      exact ih hc hwf tr htr
  | case20 s c g =>
      intro hc hwf tr htr
      rw [runMembers_nil] at htr
      simp at htr
  | case21 s c g k v rest hk ih =>
      intro hc hwf tr htr
      rw [runMembers_skip s k v rest c g (by
        rcases Bool.or_eq_true_iff.mp hk with h | h
        · exact Or.inl (of_decide_eq_true h)
        · exact Or.inr (of_decide_eq_true h))] at htr
      exact ih hc (wfMs_tail hwf) tr htr
  | case22 s c g k v rest hk e0 hdt =>
      intro hc hwf tr htr
      have hp' : (if k = "a" then Except.ok (JValue.str rdfType) else termToIri k c)
          = .error e0 := by
        rw [← hdt]
        rw [dite_eq_ite]
      rw [runMembers_propErr s k v rest c g e0
        (fun hor => hk (by rcases hor with h | h <;> simp [h])) hp'] at htr
      simp at htr
  | case23 s c g k v rest hk p hdt r e0 hr ih =>
      intro hc hwf tr htr
      have hp' : (if k = "a" then Except.ok (JValue.str rdfType) else termToIri k c)
          = .ok p := by
        rw [← hdt]
        rw [dite_eq_ite]
      have hkc : ¬ k = "#" := fun hh => hk (by simp [hh])
      have hkq : ¬ k = "@" := fun hh => hk (by simp [hh])
      have hprop : PropOK p := by
        by_cases hka : k = "a"
        · rw [if_pos hka] at hp'
          cases hp'
          exact rdfType_propOK
        · rw [if_neg hka] at hp'
          exact termToIri_propOK hc
            (wfMs_key hwf (List.mem_cons_self _ _) hkc hkq hka) hp'
      rw [runMembers_cons_err s k v p rest c g e0
        (fun hor => hk (by rcases hor with h | h <;> simp [h])) hp' hr] at htr
      exact ih hc ⟨hprop, wfMs_mem hwf (List.mem_cons_self _ _)⟩ tr htr
  | case24 s c g k v rest hk p hdt r hr ih2 ih1 =>
      intro hc hwf tr htr
      have hp' : (if k = "a" then Except.ok (JValue.str rdfType) else termToIri k c)
          = .ok p := by
        rw [← hdt]
        rw [dite_eq_ite]
      have hkc : ¬ k = "#" := fun hh => hk (by simp [hh])
      have hkq : ¬ k = "@" := fun hh => hk (by simp [hh])
      have hprop : PropOK p := by
        by_cases hka : k = "a"
        · rw [if_pos hka] at hp'
          cases hp'
          exact rdfType_propOK
        · rw [if_neg hka] at hp'
          exact termToIri_propOK hc
            (wfMs_key hwf (List.mem_cons_self _ _) hkc hkq hka) hp'
      rw [runMembers_cons_ok s k v p rest c g
        (fun hor => hk (by rcases hor with h | h <;> simp [h])) hp' hr] at htr
      rcases List.mem_append.mp htr with h1 | h1
      · exact ih2 hc ⟨hprop, wfMs_mem hwf (List.mem_cons_self _ _)⟩ tr h1
      · exact ih1 hc (wfMs_tail hwf) tr h1
  | case25 s p c g kvs r e0 hr ih =>
      intro hc hwf tr htr
      rw [runValue_obj_err s p kvs c g e0 hr] at htr
      exact ih hc hwf.2 tr htr
  | case26 s p c g kvs r hr av ha sv hpo ih =>
      intro hc hwf tr htr
      rw [runValue_obj_ok s p kvs c g av sv hr ha hpo] at htr
      rcases List.mem_append.mp htr with h1 | h1
      · exact ih hc hwf.2 tr h1
      · have he : tr = ⟨s, p, sv⟩ := by simpa using h1
        rw [he]
        exact hwf.1
  | case27 s p c g kvs r hr av ha e0 hpe ih =>
      intro hc hwf tr htr
      rw [runValue_obj_procErr s p kvs c g av e0 hr ha hpe] at htr
      exact ih hc hwf.2 tr htr
  | case28 s p c g kvs r hr ha ih =>
      intro hc hwf tr htr
      rw [runValue_obj_noAt s p kvs c g hr ha] at htr
      exact ih hc hwf.2 tr htr
  | case29 s p c g xs ih =>
      intro hc hwf tr htr
      rw [runValue_arr] at htr
      exact ih hc ⟨hwf.1, wfJ_arr hwf.2⟩ tr htr
  | case30 s p c g v hv1 hv2 ht o hpo =>
      intro hc hwf tr htr
      rw [runValue_scalar_ok s p v c g o hv1 hv2 ht hpo] at htr
      have he : tr = ⟨s, p, o⟩ := by simpa using htr
      rw [he]
      exact hwf.1
  | case31 s p c g v hv1 hv2 ht e0 hpe =>
      intro hc hwf tr htr
      rw [runValue_scalar_err s p v c g e0 hv1 hv2 ht hpe] at htr
      simp at htr
  | case32 s p c g v hv1 hv2 ht =>
      intro hc hwf tr htr
      rw [runValue_falsy s p v c g hv1 hv2 ht] at htr
      simp at htr
  | case33 s p c g =>
      intro hc hwf tr htr
      rw [runElems_nil] at htr
      simp at htr
  | case34 s p c g rest kvs r e0 hr ih =>
      intro hc hwf tr htr
      rw [runElems_obj_err s p kvs rest c g e0 hr] at htr
      exact ih hc (wfL_head hwf.2) tr htr
  | case35 s p c g rest kvs r hr av ha o hpo ih2 ih1 =>
      intro hc hwf tr htr
      rw [runElems_obj_ok s p kvs rest c g av o hr ha hpo] at htr
      rcases List.mem_append.mp htr with h1 | h1
      · rcases List.mem_append.mp h1 with h2 | h2
        · exact ih2 hc (wfL_head hwf.2) tr h2
        · have he : tr = ⟨s, p, o⟩ := by simpa using h2
          rw [he]
          exact hwf.1
      · exact ih1 hc ⟨hwf.1, wfL_tail hwf.2⟩ tr h1
  | case36 s p c g rest kvs r hr av ha e0 hpe ih =>
      intro hc hwf tr htr
      rw [runElems_obj_procErr s p kvs rest c g av e0 hr ha hpe] at htr
      exact ih hc (wfL_head hwf.2) tr htr
  | case37 s p c g rest kvs r hr ha ih =>
      intro hc hwf tr htr
      rw [runElems_obj_noAt s p kvs rest c g hr ha] at htr
      exact ih hc (wfL_head hwf.2) tr htr
  | case38 s p c g rest ys r e0 hr ih =>
      intro hc hwf tr htr
      rw [runElems_arr_err s p ys rest c g e0 hr] at htr
      exact ih hc (wfL_head hwf.2) tr htr
  | case39 s p c g rest ys r hr ih2 ih1 =>
      intro hc hwf tr htr
      rw [runElems_arr_ok s p ys rest c g hr] at htr
      rcases List.mem_append.mp htr with h1 | h1
      · exact ih2 hc (wfL_head hwf.2) tr h1
      · exact ih1 hc ⟨hwf.1, wfL_tail hwf.2⟩ tr h1
  | case40 s p c g rest v hv1 hv2 ht o hpo ih =>
      intro hc hwf tr htr
      rw [runElems_scalar_ok s p v rest c g o hv1 hv2 ht hpo] at htr
      rcases List.mem_cons.mp htr with h1 | h1
      · rw [h1]
        exact hwf.1
      · exact ih hc ⟨hwf.1, wfL_tail hwf.2⟩ tr h1
  | case41 s p c g rest v hv1 hv2 ht e0 hpe =>
      intro hc hwf tr htr
      rw [runElems_scalar_err s p v rest c g e0 hv1 hv2 ht hpe] at htr
      simp at htr
  | case42 s p c g rest v hv1 hv2 ht ih =>
      intro hc hwf tr htr
      rw [runElems_falsy s p v rest c g hv1 hv2 ht] at htr
      exact ih hc ⟨hwf.1, wfL_tail hwf.2⟩ tr htr
theorem wfJ_obj_eq (kvs : List (String × JValue)) : wfJ (.obj kvs) = wfMs kvs := by
  rw [wfJ]

theorem wfJ_str (s : String) : wfJ (.str s) = true := by
  rw [wfJ]
  all_goals intro _ h
  all_goals cases h

theorem wfMs_cons (k : String) (v : JValue) (rest : List (String × JValue)) :
    wfMs ((k, v) :: rest) =
      ((if k = "#" then ctxValOK v else (k = "@" || k = "a" || !keyBlank k)) &&
        wfJ v && wfMs rest) := by
  rw [wfMs]

theorem wfMs_nil : wfMs [] = true := by
  rw [wfMs]

theorem defaultContext_ok : CtxOK defaultContext :=
  ctxOfObj_ok (by decide)

/-- C1 amended: the claimed property-IRI shape holds for every triple
emitted from a well-formed document: one in which no object key other
than the reserved "#", "@" and "a" is blank-node shaped (keyBlank: the
key regex matches it with prefix underscore, which covers "_:foo" and,
because the dollar anchor matches before a single trailing newline,
also "_:foo\n"), and every local context binds only strings that
contain a colon and start with neither an underscore nor an angle
bracket, walked under an active context with the same property.
Without the well-formedness hypotheses the property fails (see the
counterexample): a blank-node key is emitted unchanged, and a
colon-free context binding yields a colon-free property. -/
theorem C1_amended (d : JValue) (c : Ctx) (g : Nat) (hc : CtxOK c)
    (hd : wfJ d = true) : ∀ tr ∈ (run (.one d) c g).ts, PropOK tr.prop :=
  run_propOK (.one d) c g hc hd

/-- Witness for C1 amended: a concrete well-formed document with an
explicit subject, an rdf:type member and a CURIE property, walked under
the default context. -/
theorem C1_amended_witness :
    CtxOK defaultContext ∧
    wfJ (JValue.obj [("@", JValue.str "_:s"), ("a", JValue.str "foaf:Person"),
      ("dc:title", JValue.str "t")]) = true ∧
    ∀ tr ∈ (run (.one (JValue.obj [("@", JValue.str "_:s"),
      ("a", JValue.str "foaf:Person"), ("dc:title", JValue.str "t")]))
      defaultContext 0).ts, PropOK tr.prop :=
  ⟨ctxOfObj_ok (by decide),
    by
      rw [wfJ_obj_eq]
      simp only [wfMs_cons, wfMs_nil, wfJ_str]
      decide,
    C1_amended (JValue.obj [("@", JValue.str "_:s"), ("a", JValue.str "foaf:Person"),
      ("dc:title", JValue.str "t")]) defaultContext 0 (ctxOfObj_ok (by decide))
      (by
        rw [wfJ_obj_eq]
        simp only [wfMs_cons, wfMs_nil, wfJ_str]
        decide)⟩
